import Mathlib

/-!
Paddle webhook worker.

A shallow embedding of `src/workers/paddle_webhook_worker.js` and the
properties of its specification.

* JavaScript strings are lists of UTF-16 code units (`Str`).
* JavaScript values reached through `JSON.parse` are the type `JSValue`.
* A computation that may throw returns `Option`; `none` is an uncaught
  `TypeError`.
* Functions of the platform that the worker calls but does not define
  (`toLowerCase`, HMAC, `Date`, `JSON`) are the fields of `Host`; what a theorem
  needs to know about them is an explicit hypothesis.
-/

namespace PaddleWorker

/-! ## Strings -/

/-- A JavaScript string: its sequence of UTF-16 code units. -/
abbrev Str := List Nat

/-- Code units of a string literal of the source (the literals are ASCII). -/
def lit (s : String) : Str := s.toList.map Char.toNat

/-- White space and line terminators, the code units `String.prototype.trim` removes. -/
def isWhiteSpace (c : Nat) : Bool :=
  c == 9 || c == 10 || c == 11 || c == 12 || c == 13 || c == 32 || c == 160 ||
  c == 5760 || (8192 ≤ c && c ≤ 8202) || c == 8232 || c == 8233 || c == 8239 ||
  c == 8287 || c == 12288 || c == 65279

/-- The method `String.prototype.trim`. -/
def trim (s : Str) : Str :=
  ((s.dropWhile isWhiteSpace).reverse.dropWhile isWhiteSpace).reverse

/-- The method `String.prototype.split` with a separator of one code unit. -/
def split (sep : Nat) : Str → List Str
  | [] => [[]]
  | c :: cs =>
    if c = sep then [] :: split sep cs
    else
      match split sep cs with
      | [] => [[c]]
      | piece :: pieces => (c :: piece) :: pieces

/-- The method `String.prototype.includes`. -/
def includes (s pat : Str) : Bool :=
  s.tails.any (fun t => pat.isPrefixOf t)

/-- Lower-casing of one ASCII code unit; other code units are left alone. -/
def asciiLower (c : Nat) : Nat :=
  if 65 ≤ c ∧ c ≤ 90 then c + 32 else c

/-- Truthiness of a string-or-undefined: `a || b`. -/
def orStr (a b : Option Str) : Option Str :=
  match a with
  | some (c :: cs) => some (c :: cs)
  | _ => b

/-! ## Values -/

/-- The values `JSON.parse` produces, and `undefined` for an absent property.
A number is carried as its IEEE 754 binary64 bit pattern. -/
inductive JSValue where
  | undefined
  | null
  | bool (b : Bool)
  | num (bits : Nat)
  | str (s : Str)
  | arr (items : List JSValue)
  | obj (fields : List (Str × JSValue))

/-- Platform functions the worker calls. -/
structure Host where
  /-- The method `String.prototype.toLowerCase`. -/
  toLowerCase : Str → Str
  /-- The bytes of `crypto.subtle.sign("HMAC", key, message)` for the SHA-256 key
  imported from the UTF-8 encoding of the first argument and the UTF-8 encoding
  of the second. -/
  hmacSha256 : Str → Str → List Nat
  /-- The string of a number (`Number::toString`), by bit pattern. -/
  numberToString : Nat → Str
  /-- The time value of `new Date(n)` for a number: `none` is `NaN`. -/
  numberToTime : Nat → Option Int
  /-- The function `Date.parse`: `none` is `NaN`. -/
  dateParse : Str → Option Int
  /-- The method `Date.prototype.toISOString` of a valid time value. -/
  toISOString : Int → Str
  /-- The function `JSON.parse`: `none` is a `SyntaxError`. -/
  jsonParse : Str → Option JSValue
  /-- The function `JSON.stringify`. -/
  jsonStringify : JSValue → Str

/-! ## Signature verification -/

/-- Assignment `parts[k] = v` on an object created by `{}`: assigning a string to
`__proto__` runs the inherited setter, which ignores it. -/
def setProp (parts : List (Str × Str)) (k v : Str) : List (Str × Str) :=
  if k = lit "__proto__" then parts else (k, v) :: parts

/-- Reading `parts.k` for a key that `Object.prototype` does not define. -/
def getPart (parts : List (Str × Str)) (k : Str) : Option Str :=
  parts.lookup k

/-- The callback of `forEach` in `parseSignature`. -/
def parseChunk (parts : List (Str × Str)) (chunk : Str) : List (Str × Str) :=
  match (split 61 (trim chunk)).take 2 with
  | key :: value :: _ => if key = [] then parts else setProp parts (trim key) (trim value)
  | _ => parts

/-- The function `parseSignature`. -/
def parseSignature (header : Str) : List (Str × Str) :=
  (split 59 (header.map (fun c => if c = 44 then 59 else c))).foldl parseChunk []

/-- The method `Number.prototype.toString(16)` on a byte. -/
def toStringRadix16 (n : Nat) : Str := (Nat.toDigits 16 n).map Char.toNat

/-- The call `padStart(2, "0")`. -/
def padStart2 (s : Str) : Str := List.replicate (2 - s.length) 48 ++ s

/-- The function `bufferToHex`. -/
def bufferToHex (bytes : List Nat) : Str :=
  (bytes.map (fun b => padStart2 (toStringRadix16 b))).flatten

/-- The base64 alphabet. -/
def base64Char (n : Nat) : Nat :=
  if n < 26 then 65 + n
  else if n < 52 then 71 + n
  else if n < 62 then n - 4
  else if n = 62 then 43
  else 47

/-- The function `btoa` on a binary string. -/
def btoa : List Nat → Str
  | [] => []
  | [a] => [base64Char (a / 4), base64Char (a % 4 * 16), 61, 61]
  | [a, b] => [base64Char (a / 4), base64Char (a % 4 * 16 + b / 16), base64Char (b % 16 * 4), 61]
  | a :: b :: c :: rest =>
    base64Char (a / 4) :: base64Char (a % 4 * 16 + b / 16) ::
      base64Char (b % 16 * 4 + c / 64) :: base64Char (c % 64) :: btoa rest

/-- The function `bufferToBase64`: the bytes become a binary string, then `btoa`. -/
def bufferToBase64 (bytes : List Nat) : Str := btoa bytes

/-- The function `hmacSha256Hex`. -/
def hmacSha256Hex (h : Host) (secret message : Str) : Str :=
  bufferToHex (h.hmacSha256 secret message)

/-- The function `hmacSha256Base64`. -/
def hmacSha256Base64 (h : Host) (secret message : Str) : Str :=
  bufferToBase64 (h.hmacSha256 secret message)

/-- The function `timingSafeEqual`. -/
def timingSafeEqual (a b : Str) : Bool :=
  if a.length ≠ b.length then false
  else
    (List.range a.length).foldl (fun result i => result ||| (a.getD i 0 ^^^ b.getD i 0)) 0 == 0

/-- The function `verifySignature`. -/
def verifySignature (h : Host) (body header secret : Str) : Bool :=
  if header = [] then false
  else
    let parts := parseSignature header
    let ts := orStr (getPart parts (lit "ts")) (getPart parts (lit "t"))
    let sig := orStr (getPart parts (lit "h1")) (getPart parts (lit "v1"))
    match ts, sig with
    | some (t :: ts'), some (s :: sig') =>
      let payload := (t :: ts') ++ lit ":" ++ body
      let expectedHex := hmacSha256Hex h secret payload
      let expectedB64 := hmacSha256Base64 h secret payload
      let normalizedSig := trim (s :: sig')
      if normalizedSig.length = expectedHex.length then
        timingSafeEqual expectedHex (h.toLowerCase normalizedSig)
      else if normalizedSig.length = expectedB64.length then
        timingSafeEqual expectedB64 normalizedSig
      else
        timingSafeEqual expectedHex (h.toLowerCase normalizedSig)
          || timingSafeEqual expectedB64 normalizedSig
    | _, _ => false


/-! ## Values: conversions -/

/-- The object literal `{}`. -/
def emptyObject : JSValue := .obj []

/-- The conversion `ToBoolean`. A number is falsy when it is `+0`, `-0` or `NaN`. -/
def truthy : JSValue → Bool
  | .undefined => false
  | .null => false
  | .bool b => b
  | .num bits => !(bits % 2 ^ 63 == 0 || 2 ^ 63 - 2 ^ 52 < bits % 2 ^ 63)
  | .str s => !s.isEmpty
  | .arr _ => true
  | .obj _ => true

/-- The operator `a || b` on values. -/
def jsOr (a b : JSValue) : JSValue := if truthy a then a else b

/-- Reading `v.k` for a key `k` that no built-in prototype defines: a `TypeError` on
`undefined` and `null`, the own property of an object, `undefined` otherwise. -/
def getProp (v : JSValue) (k : Str) : Option JSValue :=
  match v with
  | .undefined => none
  | .null => none
  | .obj fields => some ((fields.lookup k).getD .undefined)
  | _ => some .undefined

/-- The method `Array.prototype.join` with the separator `","`, on the item strings. -/
def joinComma : List Str → Str
  | [] => []
  | [a] => a
  | a :: b :: rest => a ++ 44 :: joinComma (b :: rest)

mutual
/-- The conversion `ToString`, as in `String(value)`: an array joins the strings of
its items, an object without an own `toString` is `[object Object]`, and an object
with an own `toString` (never callable after `JSON.parse`) is a `TypeError`. -/
def toJSString (h : Host) : JSValue → Option Str
  | .undefined => some (lit "undefined")
  | .null => some (lit "null")
  | .bool b => some (if b then lit "true" else lit "false")
  | .num bits => some (h.numberToString bits)
  | .str s => some s
  | .arr items => (itemStrings h items).map joinComma
  | .obj fields =>
    if (fields.lookup (lit "toString")).isSome then none else some (lit "[object Object]")
/-- The strings `join` concatenates: empty for `undefined` and `null`. -/
def itemStrings (h : Host) : List JSValue → Option (List Str)
  | [] => some []
  | .undefined :: rest => (itemStrings h rest).map (fun l => [] :: l)
  | .null :: rest => (itemStrings h rest).map (fun l => [] :: l)
  | v :: rest =>
    match toJSString h v with
    | none => none
    | some a => (itemStrings h rest).map (fun l => a :: l)
end

/-- The time value of `new Date(value)`: the outer `none` is a `TypeError`, the
inner `none` an invalid date. -/
def dateOf (h : Host) (v : JSValue) : Option (Option Int) :=
  match v with
  | .undefined => some none
  | .null => some (some 0)
  | .bool b => some (some (if b then 1 else 0))
  | .num bits => some (h.numberToTime bits)
  | .str s => some (h.dateParse s)
  | .arr items => (toJSString h (.arr items)).map h.dateParse
  | .obj fields => (toJSString h (.obj fields)).map h.dateParse

/-! ## Timestamps -/

/-- The class `\d` of a regular expression. -/
def isDigit (c : Nat) : Bool := 48 ≤ c && c ≤ 57

/-- The call `s.replace(/\.\d{3}Z$/, "Z")`. -/
def stripMillis (s : Str) : Str :=
  match s.reverse with
  | 90 :: d3 :: d2 :: d1 :: 46 :: rest =>
    if isDigit d1 && isDigit d2 && isDigit d3 then (90 :: rest).reverse else s
  | _ => s

/-- The function `nowIso`, the clock reading `now` being the time value of `new Date()`. -/
def nowIso (h : Host) (now : Int) : Str := stripMillis (h.toISOString now)

/-- The function `parseIso`: the outer `none` is a `TypeError`, the inner `none` is `null`. -/
def parseIso (h : Host) (value : JSValue) : Option (Option Str) :=
  if !truthy value then some none
  else
    match dateOf h value with
    | none => none
    | some none => some none
    | some (some t) => some (some (stripMillis (h.toISOString t)))

/-! ## Event normalisation -/

/-- The result of `planUpdateFromPayload`; `none` in a field is `null`. -/
structure PlanUpdate where
  plan_status : Option Str
  trial_end : Option Str
  plan_end : Option Str
  deriving DecidableEq

/-- The value `payload.data || {}`. -/
def payloadData (payload : JSValue) : Option JSValue :=
  (getProp payload (lit "data")).map (fun d => jsOr d emptyObject)

/-- The value `String(data.status || data.subscription_status || "").toLowerCase()`. -/
def statusOf (h : Host) (data : JSValue) : Option Str := do
  let status ← getProp data (lit "status")
  let subscriptionStatus ← getProp data (lit "subscription_status")
  let text ← toJSString h (jsOr (jsOr status subscriptionStatus) (.str []))
  pure (h.toLowerCase text)

/-- The value `period.ends_at || data.next_billed_at`, with
`period = data.current_billing_period || {}`. -/
def planEndValue (data : JSValue) : Option JSValue := do
  let period := jsOr (← getProp data (lit "current_billing_period")) emptyObject
  let endsAt ← getProp period (lit "ends_at")
  let nextBilledAt ← getProp data (lit "next_billed_at")
  pure (jsOr endsAt nextBilledAt)

/-- The value `data.trial_ends_at || data.trial_end`. -/
def trialEndValue (data : JSValue) : Option JSValue := do
  let trialEndsAt ← getProp data (lit "trial_ends_at")
  let trialEnd ← getProp data (lit "trial_end")
  pure (jsOr trialEndsAt trialEnd)

/-- The function `planUpdateFromPayload`; `now` is the clock reading of its `nowIso()`. -/
def planUpdateFromPayload (h : Host) (now : Int) (payload : JSValue) : Option PlanUpdate := do
  let data ← payloadData payload
  let status ← statusOf h data
  let planEnd ← parseIso h (← planEndValue data)
  let trialEnd ← parseIso h (← trialEndValue data)
  if status = lit "active" then
    pure { plan_status := some (lit "active"), trial_end := none, plan_end := planEnd }
  else if status = lit "trialing" then
    pure { plan_status := some (lit "trialing"), trial_end := trialEnd, plan_end := none }
  else if status ∈ [lit "canceled", lit "paused", lit "past_due", lit "unpaid"] then
    pure { plan_status := some (lit "active"), trial_end := none,
           plan_end := orStr planEnd (some (nowIso h now)) }
  else
    pure { plan_status := none, trial_end := none, plan_end := none }

/-- The function `inferStatusFromEvent`. -/
def inferStatusFromEvent (h : Host) (eventType : JSValue) : Option (Option Str) := do
  let text ← toJSString h (jsOr eventType (.str []))
  let normalized := h.toLowerCase text
  if includes normalized (lit "subscription.activated") then pure (some (lit "active"))
  else if includes normalized (lit "subscription.updated") then pure (some (lit "active"))
  else if includes normalized (lit "transaction.completed") then pure (some (lit "active"))
  else if includes normalized (lit "subscription.trialing") then pure (some (lit "trialing"))
  else pure none

/-! ## Request handling -/

/-- The function `toStringOrNull`: the outer `none` is a `TypeError`, the inner `none`
is `null`; a returned string is never empty. -/
def toStringOrNull (h : Host) (value : JSValue) : Option (Option Str) :=
  match value with
  | .undefined => some none
  | .null => some none
  | v =>
    match toJSString h v with
    | none => none
    | some s => if trim s = [] then some none else some (some (trim s))

/-- The function `accountKey`. -/
def accountKey (email : Str) : Str := lit "account:" ++ email

/-- The function `accountIdKey`. -/
def accountIdKey (accountId : Str) : Str := lit "account_id:" ++ accountId

/-- The result of `requireToken`. -/
structure TokenCheck where
  ok : Bool
  error : Option Str
  deriving DecidableEq

/-- The function `requireToken`: `token` is `env.BILLING_API_TOKEN` and
`authorization` is `request.headers.get("Authorization")`, `none` when absent. -/
def requireToken (token authorization : Option Str) : TokenCheck :=
  let token := token.getD []
  if token = [] then { ok := true, error := none }
  else
    let header := authorization.getD []
    let parts := split 32 header
    let value := if parts.length = 2 then trim (parts.getD 1 []) else []
    if value = [] ∨ value ≠ token then { ok := false, error := some (lit "unauthorized") }
    else { ok := true, error := none }

/-- The key-value store `env.BILLING_KV`: the latest entry of a key is the first. -/
abbrev KV := List (Str × Str)

/-- The call `BILLING_KV.put(key, value)`. -/
def KV.put (kv : KV) (key value : Str) : KV := (key, value) :: kv

/-- The call `BILLING_KV.get(key)`: `none` is `null`. -/
def KV.get (kv : KV) (key : Str) : Option Str := kv.lookup key

/-- The bindings of `env` the handlers read; `none` is an unset variable. -/
structure Env where
  BILLING_API_TOKEN : Option Str
  PADDLE_WEBHOOK_SECRET : Option Str
  BILLING_KV : KV

/-- A response built by `jsonResponse`: the status and the object that is
serialised as the body (the two headers are constant). -/
structure Response where
  status : Nat
  payload : JSValue

/-- The function `jsonResponse`. -/
def jsonResponse (payload : JSValue) (status : Nat) : Response :=
  { status := status, payload := payload }

/-- A string or `null` as a value. -/
def strOrNull : Option Str → JSValue
  | some s => .str s
  | none => .null

/-- The object `{ ok: false, error: code }`. -/
def errorBody (code : Str) : JSValue :=
  .obj [(lit "ok", .bool false), (lit "error", .str code)]

/-- The branch of `fetch` for `GET /account`. The arguments are the results of
`request.headers.get("Authorization")`, `url.searchParams.get("email")` and
`url.searchParams.get("account_id")`, `none` when absent. The result `none` is an
exception thrown by `BILLING_KV.get` on a stored text that is not JSON. -/
def handleAccount (h : Host) (env : Env) (authorization email accountId : Option Str) :
    Option Response :=
  let tokenOk := requireToken env.BILLING_API_TOKEN authorization
  if !tokenOk.ok then
    some (jsonResponse (.obj [(lit "ok", .bool false), (lit "error", strOrNull tokenOk.error)]) 401)
  else
    let email := h.toLowerCase (trim (email.getD []))
    let accountId := trim (accountId.getD [])
    if email = [] ∧ accountId = [] then
      some (jsonResponse (errorBody (lit "missing_identifier")) 400)
    else
      let key := if email ≠ [] then accountKey email else accountIdKey accountId
      match env.BILLING_KV.get key with
      | none => some (jsonResponse (errorBody (lit "not_found")) 404)
      | some text =>
        match h.jsonParse text with
        | none => none
        | some record =>
          if !truthy record then some (jsonResponse (errorBody (lit "not_found")) 404)
          else some (jsonResponse (.obj [(lit "ok", .bool true), (lit "account", record)]) 200)

/-- The value `toStringOrNull(custom.email) || toStringOrNull((data.customer || {}).email)
|| toStringOrNull(data.customer_email)`; a later operand is evaluated only when the
earlier ones are `null`. -/
def extractEmail (h : Host) (data custom : JSValue) : Option (Option Str) := do
  match ← toStringOrNull h (← getProp custom (lit "email")) with
  | some e => pure (some e)
  | none =>
    let customer := jsOr (← getProp data (lit "customer")) emptyObject
    match ← toStringOrNull h (← getProp customer (lit "email")) with
    | some e => pure (some e)
    | none => toStringOrNull h (← getProp data (lit "customer_email"))

/-- The value `data.custom_data || {}`. -/
def customData (data : JSValue) : Option JSValue :=
  (getProp data (lit "custom_data")).map (fun c => jsOr c emptyObject)

/-- The value `payload.event_type || payload.alert_name`. -/
def eventTypeValue (payload : JSValue) : Option JSValue := do
  let eventType ← getProp payload (lit "event_type")
  let alertName ← getProp payload (lit "alert_name")
  pure (jsOr eventType alertName)

/-- The value `toStringOrNull(data.customer_id || (data.customer || {}).id)`. -/
def customerIdOf (h : Host) (data : JSValue) : Option (Option Str) := do
  let customerId ← getProp data (lit "customer_id")
  let customer := jsOr (← getProp data (lit "customer")) emptyObject
  let id ← getProp customer (lit "id")
  toStringOrNull h (jsOr customerId id)

/-- The value `toStringOrNull(data.id || data.subscription_id)`. -/
def subscriptionIdOf (h : Host) (data : JSValue) : Option (Option Str) := do
  let id ← getProp data (lit "id")
  let subscriptionId ← getProp data (lit "subscription_id")
  toStringOrNull h (jsOr id subscriptionId)

/-- What the webhook branch computes from the payload before it writes. -/
structure Delivery where
  accountId : Option Str
  email : Option Str
  record : JSValue

/-- The object `record` of the webhook branch. -/
def buildRecord (h : Host) (nowRecord : Int) (accountId email : Option Str)
    (planUpdate : PlanUpdate) (fallbackStatus customerId subscriptionId : Option Str)
    (eventType : JSValue) : JSValue :=
  .obj [
    (lit "account_id", strOrNull accountId),
    (lit "email", strOrNull (email.map h.toLowerCase)),
    (lit "plan_status", strOrNull (orStr planUpdate.plan_status fallbackStatus)),
    (lit "trial_end", strOrNull planUpdate.trial_end),
    (lit "plan_end", strOrNull planUpdate.plan_end),
    (lit "paddle_customer_id", strOrNull customerId),
    (lit "paddle_subscription_id", strOrNull subscriptionId),
    (lit "last_event", jsOr eventType (.str (lit "unknown"))),
    (lit "updated_at", .str (nowIso h nowRecord))]

/-- The statements of the webhook branch from `const data` to `const record`;
`nowPlan` and `nowRecord` are the clock readings of the `nowIso()` of
`planUpdateFromPayload` and of `updated_at`. -/
def deliveryOf (h : Host) (nowPlan nowRecord : Int) (payload : JSValue) : Option Delivery := do
  let data ← payloadData payload
  let custom ← customData data
  let accountId ← toStringOrNull h (← getProp custom (lit "account_id"))
  let email ← extractEmail h data custom
  let planUpdate ← planUpdateFromPayload h nowPlan payload
  let eventType ← eventTypeValue payload
  let fallbackStatus ← inferStatusFromEvent h (jsOr eventType (.str []))
  let customerId ← customerIdOf h data
  let subscriptionId ← subscriptionIdOf h data
  pure { accountId := accountId, email := email,
         record := buildRecord h nowRecord accountId email planUpdate fallbackStatus customerId
           subscriptionId eventType }

/-- The two conditional `BILLING_KV.put` calls of the webhook branch. -/
def storeDelivery (h : Host) (kv : KV) (d : Delivery) : KV :=
  let kv1 := match d.email with
    | some e => kv.put (accountKey (h.toLowerCase e)) (h.jsonStringify d.record)
    | none => kv
  match d.accountId with
  | some a => kv1.put (accountIdKey a) (h.jsonStringify d.record)
  | none => kv1

/-- The branch of `fetch` for `POST /webhook/paddle`. `body` is the decoded request
body and `signature` the result of `request.headers.get("Paddle-Signature")`. The
result is the response and the store afterwards; `none` is an exception that
leaves the handler. -/
def handleWebhook (h : Host) (nowPlan nowRecord : Int) (env : Env) (body : Str)
    (signature : Option Str) : Option (Response × KV) :=
  let secret := env.PADDLE_WEBHOOK_SECRET.getD []
  let signature := signature.getD []
  if secret ≠ [] ∧ verifySignature h body signature secret = false then
    some (jsonResponse (errorBody (lit "invalid_signature")) 401, env.BILLING_KV)
  else
    match h.jsonParse (if body = [] then lit "\x7b\x7d" else body) with
    | none => some (jsonResponse (errorBody (lit "invalid_json")) 400, env.BILLING_KV)
    | some payload =>
      match deliveryOf h nowPlan nowRecord payload with
      | none => none
      | some d =>
        some (jsonResponse (.obj [(lit "ok", .bool true)]) 200, storeDelivery h env.BILLING_KV d)

/-! ## Vocabulary of the statements -/

/-- The hexadecimal digit of a value below 16, in lower case. -/
def hexDigit (d : Nat) : Nat := if d < 10 then 48 + d else 87 + d

/-- A code unit among `0`-`9`, `a`-`f`. -/
def isLowerHex (c : Nat) : Bool := (48 ≤ c && c ≤ 57) || (97 ≤ c && c ≤ 102)

/-- A code unit of the base64 alphabet, the padding `=` apart. -/
def isBase64Alpha (c : Nat) : Bool :=
  (65 ≤ c && c ≤ 90) || (97 ≤ c && c ≤ 122) || (48 ≤ c && c ≤ 57) || c == 43 || c == 47

/-- The header `ts=<timestamp>;h1=<sig>`. -/
def signatureHeader (timestamp sig : Str) : Str := lit "ts=" ++ timestamp ++ lit ";h1=" ++ sig

/-- A timestamp that is not empty, has no leading or trailing white space and
contains none of `;`, `,` and `=`. -/
def WellFormedTimestamp (ts : Str) : Prop :=
  ts ≠ [] ∧ trim ts = ts ∧ 59 ∉ ts ∧ 44 ∉ ts ∧ 61 ∉ ts

/-- The digest has 32 bytes. -/
def Hmac32 (h : Host) : Prop :=
  ∀ key msg, (h.hmacSha256 key msg).length = 32 ∧ ∀ b ∈ h.hmacSha256 key msg, b < 256

/-- On a string of ASCII code units `toLowerCase` lower-cases each letter `A`-`Z`. -/
def LowerAscii (h : Host) : Prop :=
  ∀ s : Str, (∀ c ∈ s, c < 128) → h.toLowerCase s = s.map asciiLower

/-- The lower-casing of a string with a code unit outside ASCII has a code unit
outside ASCII, or an `i` or a `k` (the images of U+0130 and of the Kelvin sign). -/
def LowerNonAscii (h : Host) : Prop :=
  ∀ s : Str, (∃ c ∈ s, 128 ≤ c) → ∃ d ∈ h.toLowerCase s, 128 ≤ d ∨ d = 105 ∨ d = 107

/-- The entry `parts.k` exists and is not the empty string. -/
def hasValue (parts : List (Str × Str)) (k : Str) : Prop :=
  ∃ v, getPart parts k = some v ∧ v ≠ []

/-- Reading `v.k` on a value that is neither `undefined` nor `null`. -/
def field (v : JSValue) (k : Str) : JSValue := (getProp v k).getD .undefined

/-- The operator `a ?? b`, which the specification writes in its steps 2 and 3. -/
def nullishOr (a b : JSValue) : JSValue :=
  match a with
  | .undefined => b
  | .null => b
  | v => v

/-- The payload `{"data":{"status":"active","current_billing_period":{"ends_at":""},
"next_billed_at":"2025-01-15T10:00:00Z"}}`. -/
def activeEmptyEndsAt : JSValue :=
  .obj [(lit "data", .obj [
    (lit "status", .str (lit "active")),
    (lit "current_billing_period", .obj [(lit "ends_at", .str [])]),
    (lit "next_billed_at", .str (lit "2025-01-15T10:00:00Z"))])]

/-- The payload `{"data":{"status":"canceled","trial_end":{"toString":0}}}`. -/
def canceledOwnToString : JSValue :=
  .obj [(lit "data", .obj [
    (lit "status", .str (lit "canceled")),
    (lit "trial_end", .obj [(lit "toString", .num 0)])])]

/-- The payload `{"data":{"status":"past_due"},"event_type":"x"}`. -/
def pastDueNoPeriod : JSValue :=
  .obj [(lit "data", .obj [(lit "status", .str (lit "past_due"))]),
        (lit "event_type", .str (lit "x"))]

/-- An environment with no token, no webhook secret and an empty store. -/
def openEnv : Env := { BILLING_API_TOKEN := none, PADDLE_WEBHOOK_SECRET := none, BILLING_KV := [] }

/-- Two headers that differ only in which of `,` and `;` stands at a separator. -/
def SameUpToSeparators (a b : Str) : Prop :=
  List.Forall₂ (fun x y => x = y ∨ ((x = 44 ∨ x = 59) ∧ (y = 44 ∨ y = 59))) a b

/-- The value of a string of decimal digits. -/
def digitsValue (ds : Str) : Nat := ds.foldl (fun acc d => 10 * acc + (d - 48)) 0

/-- The call `parseInt(s, 10)`: leading white space is skipped, one sign is read, and
the longest run of decimal digits is the value; `none` is `NaN`. The number is
carried as the integer it denotes: rounding a large one to a double does not move
it across 1 or 20, the only comparisons made with it. -/
def parseInt10 (s : Str) : Option Int :=
  let rest :=
    match s.dropWhile isWhiteSpace with
    | 45 :: r => r
    | 43 :: r => r
    | r => r
  let negative :=
    match s.dropWhile isWhiteSpace with
    | 45 :: _ => true
    | _ => false
  let digits := rest.takeWhile isDigit
  if digits = [] then none
  else some (if negative then -(digitsValue digits : Int) else (digitsValue digits : Int))

/-- The constant `limit` of the `GET /transactions` branch, which is sent as
`per_page`: `limitParam = parseInt(url.searchParams.get("limit") || "5", 10)` and
`limit = Math.min(Math.max(1, Number.isNaN(limitParam) ? 5 : limitParam), 20)`. The
argument is the result of `url.searchParams.get("limit")`, `none` when absent. -/
def transactionsLimit (limit : Option Str) : Int :=
  let limitParam := parseInt10 (match limit with
    | some (c :: cs) => c :: cs
    | _ => lit "5")
  min (max 1 (match limitParam with
    | none => 5
    | some n => n)) 20

/-- The text of an integer: decimal digits, after a `-` for a negative one. -/
def IntegerText (s : Str) (n : Int) : Prop :=
  ∃ ds : Str, ds ≠ [] ∧ (∀ d ∈ ds, isDigit d = true)
    ∧ ((s = ds ∧ n = (digitsValue ds : Int)) ∨ (s = 45 :: ds ∧ n = -(digitsValue ds : Int)))

/-- The text starts with an integer as `parseInt` reads one: after leading white
space and one optional sign stands a decimal digit. -/
def startsWithInteger (s : Str) : Bool :=
  match s.dropWhile isWhiteSpace with
  | 45 :: d :: _ => isDigit d
  | 43 :: d :: _ => isDigit d
  | d :: _ => isDigit d
  | [] => false

/-- The fallback status as the specification words it, on the lower-cased event
text: `active` when it contains `subscription.activated`, `subscription.updated` or
`transaction.completed`, else `trialing` when it contains `subscription.trialing`,
else `null`. -/
def fallbackStatus (text : Str) : Option Str :=
  if includes text (lit "subscription.activated") ∨ includes text (lit "subscription.updated")
      ∨ includes text (lit "transaction.completed") then some (lit "active")
  else if includes text (lit "subscription.trialing") then some (lit "trialing")
  else none

/-- The value `payload.event_type || payload.alert_name` of a payload that is neither
`undefined` nor `null`. -/
def eventValue (payload : JSValue) : JSValue :=
  jsOr (field payload (lit "event_type")) (field payload (lit "alert_name"))

/-- The payload `{"event_type":"subscription.trialing"}`. -/
def trialingEventOnly : JSValue :=
  .obj [(lit "event_type", .str (lit "subscription.trialing"))]

/-- The payload
`{"data":{"status":"active","custom_data":{"email":"Ann@Example.com","account_id":"u1"}},
"event_type":"subscription.updated"}`. -/
def annPayload : JSValue :=
  .obj [(lit "data", .obj [
    (lit "status", .str (lit "active")),
    (lit "custom_data", .obj [
      (lit "email", .str (lit "Ann@Example.com")),
      (lit "account_id", .str (lit "u1"))])]),
        (lit "event_type", .str (lit "subscription.updated"))]

/-- The record the webhook branch builds from `annPayload` at the epoch. -/
def annRecord : JSValue :=
  .obj [
    (lit "account_id", .str (lit "u1")),
    (lit "email", .str (lit "ann@example.com")),
    (lit "plan_status", .str (lit "active")),
    (lit "trial_end", .null),
    (lit "plan_end", .null),
    (lit "paddle_customer_id", .null),
    (lit "paddle_subscription_id", .null),
    (lit "last_event", .str (lit "subscription.updated")),
    (lit "updated_at", .str (lit "1970-01-01T00:00:00Z"))]

mutual
/-- The text of `JSON.stringify` for a value whose strings need no escape; a number
is not rendered. It serves the example host only. -/
def plainStringify : JSValue → Str
  | .undefined => lit "null"
  | .null => lit "null"
  | .bool b => if b then lit "true" else lit "false"
  | .num _ => lit "0"
  | .str s => 34 :: s ++ [34]
  | .arr items => 91 :: joinComma (plainItems items) ++ [93]
  | .obj fields => 123 :: joinComma (plainFields fields) ++ [125]
/-- The texts of the items of an array. -/
def plainItems : List JSValue → List Str
  | [] => []
  | v :: rest => plainStringify v :: plainItems rest
/-- The texts of the properties of an object. -/
def plainFields : List (Str × JSValue) → List Str
  | [] => []
  | (k, v) :: rest => (34 :: k ++ 34 :: 58 :: plainStringify v) :: plainFields rest
end

/-- A host that agrees with the platform on the literals of the examples: the
lower-casing of ASCII text, the HMAC-SHA256 of `1700000000:{}` under the key
`secret`, the instants `2025-01-15T10:00:00Z` and the epoch, the JSON texts `null`,
`{}` and those of `annPayload` and `annRecord`, and the serialisation of values whose
strings need no escape. Elsewhere it returns a placeholder. -/
def demoHost : Host where
  toLowerCase := fun s => s.map asciiLower
  hmacSha256 := fun key msg =>
    if key = lit "secret" ∧ msg = lit "1700000000:\x7b\x7d" then
      [0x90, 0xd1, 0xdf, 0xc3, 0x05, 0x36, 0x3e, 0x56, 0x43, 0x8c, 0x2a, 0x03, 0xda, 0xc8, 0xb9,
       0x1f, 0x27, 0xa9, 0x84, 0x2b, 0x7e, 0x36, 0x1a, 0xfe, 0x37, 0x43, 0x83, 0x1b, 0xca, 0x23,
       0xc8, 0x56]
    else List.replicate 32 0
  numberToString := fun _ => lit "0"
  numberToTime := fun _ => none
  dateParse := fun s => if s = lit "2025-01-15T10:00:00Z" then some 1736935200000 else none
  toISOString := fun t =>
    if t = 1736935200000 then lit "2025-01-15T10:00:00.000Z" else lit "1970-01-01T00:00:00.000Z"
  jsonParse := fun s =>
    if s = lit "null" then some .null
    else if s = lit "\x7b\x7d" then some emptyObject
    else if s = plainStringify annPayload then some annPayload
    else if s = plainStringify annRecord then some annRecord
    else none
  jsonStringify := plainStringify

/-- What the webhook branch computes from `{"event_type":"subscription.trialing"}`
when `updated_at` is read at the epoch. -/
def trialingDelivery : Delivery :=
  { accountId := none, email := none,
    record := buildRecord demoHost 0 none none
      { plan_status := none, trial_end := none, plan_end := none } (some (lit "trialing")) none
      none (.str (lit "subscription.trialing")) }

/-- The payload `{"data":{"status":"expired","trial_end":{"toString":0}},"event_type":"x"}`. -/
def expiredOwnToString : JSValue :=
  .obj [(lit "data", .obj [
    (lit "status", .str (lit "expired")),
    (lit "trial_end", .obj [(lit "toString", .num 0)])]),
        (lit "event_type", .str (lit "x"))]

/-- The store after `annPayload` is delivered to an empty store. -/
def annStore : KV :=
  [(lit "account_id:u1", plainStringify annRecord),
   (lit "account:ann@example.com", plainStringify annRecord)]

/-- What the webhook branch computes from `annPayload` at the epoch. -/
def annDelivery : Delivery :=
  { accountId := some (lit "u1"), email := some (lit "Ann@Example.com"), record := annRecord }

/-- An environment whose webhook secret is `secret`, with an empty store. -/
def secretEnv : Env :=
  { BILLING_API_TOKEN := none, PADDLE_WEBHOOK_SECRET := some (lit "secret"), BILLING_KV := [] }

/-! ## Lemmas on strings -/

theorem split_ne_nil (sep : Nat) (s : Str) : split sep s ≠ [] := by
  induction s with
  | nil => simp [split]
  | cons c cs ih =>
    unfold split
    split_ifs
    · simp
    · cases h : split sep cs <;> simp

theorem split_of_not_mem (sep : Nat) (s : Str) (h : sep ∉ s) : split sep s = [s] := by
  induction s with
  | nil => rfl
  | cons c cs ih =>
    have hc : c ≠ sep := fun e => h (by simp [e])
    have hcs : sep ∉ cs := fun e => h (by simp [e])
    simp [split, hc, ih hcs]

theorem split_append_sep (sep : Nat) (a b : Str) (h : sep ∉ a) :
    split sep (a ++ sep :: b) = a :: split sep b := by
  induction a with
  | nil => simp [split]
  | cons c cs ih =>
    have hc : c ≠ sep := fun e => h (by simp [e])
    have hcs : sep ∉ cs := fun e => h (by simp [e])
    simp [split, hc, ih hcs]

theorem trim_eq_self_of_ends (s : Str) (hs : s ≠ [])
    (hhead : isWhiteSpace (s.head hs) = false) (hlast : isWhiteSpace (s.getLast hs) = false) :
    trim s = s := by
  unfold trim
  have h1 : s.dropWhile isWhiteSpace = s := by
    cases s with
    | nil => rfl
    | cons c cs => simp at hhead; simp [List.dropWhile, hhead]
  rw [h1]
  have h2 : s.reverse.dropWhile isWhiteSpace = s.reverse := by
    have hr : s.reverse ≠ [] := by simpa using hs
    obtain ⟨c, cs, hc⟩ := List.exists_cons_of_ne_nil hr
    have : c = s.getLast hs := by
      have := List.head_reverse hr
      simp [hc] at this
      simpa using this
    rw [hc]
    simp [List.dropWhile, this, hlast]
  rw [h2, List.reverse_reverse]

theorem lor_eq_zero (a b : Nat) : a ||| b = 0 ↔ a = 0 ∧ b = 0 := by
  constructor
  · intro h
    constructor
    · apply Nat.eq_of_testBit_eq
      intro i
      have := congrArg (fun n => Nat.testBit n i) h
      simp [Nat.testBit_or] at this
      simp [this.1]
    · apply Nat.eq_of_testBit_eq
      intro i
      have := congrArg (fun n => Nat.testBit n i) h
      simp [Nat.testBit_or] at this
      simp [this.2]
  · rintro ⟨rfl, rfl⟩
    rfl

theorem foldl_lor_eq_zero (f : Nat → Nat) (n : Nat) :
    (List.range n).foldl (fun result i => result ||| f i) 0 = 0 ↔ ∀ i, i < n → f i = 0 := by
  induction n with
  | zero => simp
  | succ n ih =>
    rw [List.range_succ, List.foldl_append]
    simp only [List.foldl_cons, List.foldl_nil]
    rw [lor_eq_zero, ih]
    constructor
    · rintro ⟨h1, h2⟩ i hi
      rcases Nat.lt_succ_iff_lt_or_eq.mp hi with h | h
      · exact h1 i h
      · exact h ▸ h2
    · intro h
      exact ⟨fun i hi => h i (Nat.lt_succ_of_lt hi), h n (Nat.lt_succ_self n)⟩

theorem timingSafeEqual_iff (a b : Str) : timingSafeEqual a b = true ↔ a = b := by
  unfold timingSafeEqual
  by_cases hlen : a.length = b.length
  · simp only [hlen, ne_eq, not_true_eq_false, if_false, beq_iff_eq]
    rw [← hlen, foldl_lor_eq_zero (fun i => a.getD i 0 ^^^ b.getD i 0)]
    constructor
    · intro h
      apply List.ext_getElem hlen
      intro i h1 h2
      have := h i h1
      rw [Nat.xor_eq_zero, List.getD_eq_getElem a 0 h1, List.getD_eq_getElem b 0 h2] at this
      exact this
    · rintro rfl i _
      simp
  · simp only [ne_eq, hlen, not_false_eq_true, if_true]
    constructor
    · intro h; cases h
    · rintro rfl; exact absurd rfl hlen




set_option maxRecDepth 100000 in
theorem byteHex_eq : ∀ b, b < 256 →
    padStart2 (toStringRadix16 b) = [hexDigit (b / 16), hexDigit (b % 16)] := by
  decide

theorem hexDigit_isLowerHex (d : Nat) (hd : d < 16) : isLowerHex (hexDigit d) = true := by
  unfold hexDigit isLowerHex
  split_ifs <;> simp <;> omega

theorem bufferToHex_cons (b : Nat) (bs : List Nat) (hb : b < 256) :
    bufferToHex (b :: bs) = hexDigit (b / 16) :: hexDigit (b % 16) :: bufferToHex bs := by
  simp [bufferToHex, byteHex_eq b hb]

theorem bufferToHex_length (bytes : List Nat) (hb : ∀ b ∈ bytes, b < 256) :
    (bufferToHex bytes).length = 2 * bytes.length := by
  induction bytes with
  | nil => rfl
  | cons b bs ih =>
    rw [bufferToHex_cons b bs (hb b (by simp))]
    simp [ih (fun c hc => hb c (by simp [hc]))]
    omega

theorem bufferToHex_isLowerHex (bytes : List Nat) (hb : ∀ b ∈ bytes, b < 256) :
    ∀ c ∈ bufferToHex bytes, isLowerHex c = true := by
  induction bytes with
  | nil => intro c hc; simp [bufferToHex] at hc
  | cons b bs ih =>
    have hb0 : b < 256 := hb b (by simp)
    rw [bufferToHex_cons b bs hb0]
    intro c hc
    simp only [List.mem_cons] at hc
    rcases hc with rfl | rfl | hc
    · exact hexDigit_isLowerHex _ (by omega)
    · exact hexDigit_isLowerHex _ (by omega)
    · exact ih (fun c hc => hb c (by simp [hc])) c hc

theorem isLowerHex_facts (c : Nat) (hc : isLowerHex c = true) :
    c < 128 ∧ asciiLower c = c ∧ c ≠ 59 ∧ c ≠ 44 ∧ c ≠ 61 ∧ isWhiteSpace c = false := by
  simp only [isLowerHex, Bool.or_eq_true, Bool.and_eq_true, decide_eq_true_eq] at hc
  refine ⟨by omega, ?_, by omega, by omega, by omega, ?_⟩
  · unfold asciiLower
    split_ifs with h
    · omega
    · rfl
  · simp only [isWhiteSpace, Bool.or_eq_false_iff, Bool.and_eq_false_iff, beq_eq_false_iff_ne,
      decide_eq_false_iff_not]
    omega



theorem trim_eq_rdropWhile (s : Str) :
    trim s = (s.dropWhile isWhiteSpace).rdropWhile isWhiteSpace := rfl

theorem rdropWhile_append_of_getLast {p : Nat → Bool} (a b : Str) (ha : a ≠ [])
    (hp : p (a.getLast ha) = false) :
    (a ++ b).rdropWhile p = a ++ b.rdropWhile p := by
  induction b using List.reverseRecOn with
  | nil =>
    simp only [List.append_nil, List.rdropWhile_nil]
    exact List.rdropWhile_eq_self_iff.mpr (fun _ => by simp [hp])
  | append_singleton b x ih =>
    rw [← List.append_assoc]
    by_cases hx : p x = true
    · rw [List.rdropWhile_concat_pos _ _ _ hx, List.rdropWhile_concat_pos _ _ _ hx, ih]
    · rw [List.rdropWhile_concat_neg _ _ _ hx, List.rdropWhile_concat_neg _ _ _ hx,
        List.append_assoc]

theorem dropWhile_of_head {p : Nat → Bool} (c : Nat) (cs : Str) (hp : p c = false) :
    (c :: cs).dropWhile p = c :: cs := by
  simp [List.dropWhile, hp]

theorem trim_of_no_whiteSpace (s : Str) (h : ∀ c ∈ s, isWhiteSpace c = false) : trim s = s := by
  rw [trim_eq_rdropWhile]
  have h1 : s.dropWhile isWhiteSpace = s := by
    cases s with
    | nil => rfl
    | cons c cs => exact dropWhile_of_head c cs (h c (by simp))
  rw [h1]
  exact List.rdropWhile_eq_self_iff.mpr (fun hs => by simp [h _ (List.getLast_mem hs)])

theorem trim_fixed_ends (s : Str) (hs : s ≠ []) (h : trim s = s) :
    isWhiteSpace (s.head hs) = false ∧ isWhiteSpace (s.getLast hs) = false := by
  rw [trim_eq_rdropWhile] at h
  have hlen1 : ((s.dropWhile isWhiteSpace).rdropWhile isWhiteSpace).length
      ≤ (s.dropWhile isWhiteSpace).length := by
    unfold List.rdropWhile
    rw [List.length_reverse]
    exact (List.Sublist.length_le (List.dropWhile_sublist _)).trans (by simp)
  have hlen2 : (s.dropWhile isWhiteSpace).length ≤ s.length :=
    List.Sublist.length_le (List.dropWhile_sublist _)
  have hd : s.dropWhile isWhiteSpace = s := by
    apply List.Sublist.eq_of_length_le (List.dropWhile_sublist _)
    rw [h] at hlen1
    exact hlen1
  rw [hd] at h
  constructor
  · cases s with
    | nil => exact absurd rfl hs
    | cons c cs =>
      cases hc : isWhiteSpace c with
      | false => simpa using hc
      | true =>
        exfalso
        have : ((c :: cs).dropWhile isWhiteSpace).length ≤ cs.length := by
          simp only [List.dropWhile, hc]
          exact List.Sublist.length_le (List.dropWhile_sublist _)
        rw [hd] at this
        simp at this
  · have := List.rdropWhile_eq_self_iff.mp h hs
    simpa using this

theorem split_head (sep : Nat) (s : Str) :
    ∃ rest, split sep s = s.takeWhile (fun c => c != sep) :: rest := by
  induction s with
  | nil => exact ⟨[], rfl⟩
  | cons c cs ih =>
    obtain ⟨rest, hrest⟩ := ih
    by_cases hc : c = sep
    · exact ⟨split sep cs, by simp [split, hc]⟩
    · exact ⟨rest, by simp [split, hc, hrest]⟩

theorem parseChunk_kv (parts : List (Str × Str)) (chunk k w : Str)
    (hchunk : trim chunk = k ++ 61 :: w) (hk : k ≠ []) (hk61 : 61 ∉ k) :
    parseChunk parts chunk
      = setProp parts (trim k) (trim (w.takeWhile (fun c => c != 61))) := by
  unfold parseChunk
  rw [hchunk, split_append_sep 61 k w hk61]
  obtain ⟨rest, hrest⟩ := split_head 61 w
  rw [hrest]
  simp [hk]

theorem parseChunk_no_eq (parts : List (Str × Str)) (chunk : Str) (h : 61 ∉ chunk) :
    parseChunk parts chunk = parts := by
  unfold parseChunk
  have : 61 ∉ trim chunk := by
    intro hmem
    apply h
    rw [trim_eq_rdropWhile] at hmem
    have h1 := ( List.rdropWhile_prefix isWhiteSpace (chunk.dropWhile isWhiteSpace)).subset hmem
    exact (List.dropWhile_sublist _).subset h1
  rw [split_of_not_mem 61 _ this]
  rfl



theorem orStr_some_cons (c : Nat) (cs : Str) (b : Option Str) :
    orStr (some (c :: cs)) b = some (c :: cs) := rfl

theorem orStr_of_ne_nil (s : Str) (b : Option Str) (hs : s ≠ []) : orStr (some s) b = some s := by
  cases s with
  | nil => exact absurd rfl hs
  | cons c cs => rfl

theorem map_eq_self (f : Nat → Nat) (s : Str) (h : ∀ c ∈ s, f c = c) : s.map f = s := by
  induction s with
  | nil => rfl
  | cons c cs ih =>
    simp [h c (by simp), ih (fun d hd => h d (by simp [hd]))]

theorem map_comma_of_not_mem (s : Str) (h : 44 ∉ s) :
    s.map (fun c => if c = 44 then 59 else c) = s := by
  induction s with
  | nil => rfl
  | cons c cs ih =>
    have hc : c ≠ 44 := fun e => h (by simp [e])
    have hcs : 44 ∉ cs := fun e => h (by simp [e])
    simp [hc, ih hcs]

theorem parseSignature_header (T V : Str) (hT : WellFormedTimestamp T)
    (hV59 : 59 ∉ V) (hV44 : 44 ∉ V) :
    parseSignature (signatureHeader T V)
      = [(lit "h1", trim ((V.rdropWhile isWhiteSpace).takeWhile (fun c => c != 61))),
         (lit "ts", T)] := by
  obtain ⟨hTne, hTtrim, hT59, hT44, hT61⟩ := hT
  obtain ⟨hThead, hTlast⟩ := trim_fixed_ends T hTne hTtrim
  have hmap : (signatureHeader T V).map (fun c => if c = 44 then 59 else c)
      = signatureHeader T V := by
    apply map_comma_of_not_mem
    intro hc
    simp only [signatureHeader, List.mem_append] at hc
    rcases hc with ((hc | hc) | hc) | hc
    · revert hc; decide
    · exact hT44 hc
    · revert hc; decide
    · exact hV44 hc
  have hsplit : split 59 (signatureHeader T V) = [lit "ts=" ++ T, lit "h1=" ++ V] := by
    have e : signatureHeader T V = (lit "ts=" ++ T) ++ 59 :: (lit "h1=" ++ V) := by
      simp [signatureHeader, lit]
    rw [e, split_append_sep, split_of_not_mem]
    · intro hc
      simp only [List.mem_append] at hc
      rcases hc with hc | hc
      · revert hc; decide
      · exact hV59 hc
    · intro hc
      simp only [List.mem_append] at hc
      rcases hc with hc | hc
      · revert hc; decide
      · exact hT59 hc
  have htrim1 : trim (lit "ts=" ++ T) = lit "ts" ++ 61 :: T := by
    have e : lit "ts=" ++ T = lit "ts" ++ 61 :: T := by simp [lit]
    rw [e]
    apply trim_eq_self_of_ends _ (by simp [lit])
    · simp [lit]; decide
    · have : (lit "ts" ++ 61 :: T).getLast (by simp [lit]) = T.getLast hTne := by
        simp [lit, List.getLast_cons, hTne]
      rw [this]; exact hTlast
  have htrim2 : trim (lit "h1=" ++ V) = lit "h1" ++ 61 :: V.rdropWhile isWhiteSpace := by
    rw [trim_eq_rdropWhile]
    have e : (lit "h1=" ++ V).dropWhile isWhiteSpace = lit "h1=" ++ V := by
      have : lit "h1=" ++ V = 104 :: (49 :: 61 :: V) := by simp [lit]
      rw [this]
      exact dropWhile_of_head _ _ (by decide)
    rw [e, rdropWhile_append_of_getLast (lit "h1=") V (by decide) (by decide)]
    simp [lit]
  have hts61 : 61 ∉ lit "ts" := by decide
  have hh161 : 61 ∉ lit "h1" := by decide
  unfold parseSignature
  rw [hmap, hsplit]
  simp only [List.foldl_cons, List.foldl_nil]
  rw [parseChunk_kv [] _ (lit "ts") T htrim1 (by decide) hts61]
  have htake : T.takeWhile (fun c => c != 61) = T := by
    apply List.takeWhile_eq_self_iff.mpr
    intro c hc
    have : c ≠ 61 := fun e => hT61 (e ▸ hc)
    simpa using this
  rw [htake, hTtrim]
  rw [parseChunk_kv _ _ (lit "h1") _ htrim2 (by decide) hh161]
  have e1 : trim (lit "ts") = lit "ts" := by decide
  have e2 : trim (lit "h1") = lit "h1" := by decide
  rw [e1, e2]
  have p1 : lit "ts" ≠ lit "__proto__" := by decide
  have p2 : lit "h1" ≠ lit "__proto__" := by decide
  simp [setProp, p1, p2]




theorem base64Char_isBase64Alpha (n : Nat) (hn : n < 64) : isBase64Alpha (base64Char n) = true := by
  unfold base64Char isBase64Alpha
  split_ifs <;> simp <;> omega

theorem isBase64Alpha_facts (c : Nat) (hc : isBase64Alpha c = true) :
    c < 128 ∧ c ≠ 59 ∧ c ≠ 44 ∧ c ≠ 61 ∧ isWhiteSpace c = false := by
  simp only [isBase64Alpha, Bool.or_eq_true, Bool.and_eq_true, decide_eq_true_eq,
    beq_iff_eq] at hc
  refine ⟨by omega, by omega, by omega, by omega, ?_⟩
  simp only [isWhiteSpace, Bool.or_eq_false_iff, Bool.and_eq_false_iff, beq_eq_false_iff_ne,
    decide_eq_false_iff_not]
  omega

theorem btoa_padded (bytes : List Nat) (hb : ∀ b ∈ bytes, b < 256)
    (hlen : bytes.length % 3 = 2) :
    ∃ p, btoa bytes = p ++ [61] ∧ p.length + 1 = 4 * (bytes.length / 3 + 1)
      ∧ ∀ c ∈ p, isBase64Alpha c = true := by
  induction bytes using btoa.induct with
  | case1 => simp at hlen
  | case2 a => simp at hlen
  | case3 a b =>
    have ha : a < 256 := hb a (by simp)
    have hb' : b < 256 := hb b (by simp)
    refine ⟨[base64Char (a / 4), base64Char (a % 4 * 16 + b / 16), base64Char (b % 16 * 4)],
      by simp [btoa], by simp, ?_⟩
    intro c hc
    simp only [List.mem_cons, List.mem_singleton, List.not_mem_nil, or_false] at hc
    rcases hc with rfl | rfl | rfl <;> apply base64Char_isBase64Alpha <;> omega
  | case4 a b c rest ih =>
    have ha : a < 256 := hb a (by simp)
    have hb' : b < 256 := hb b (by simp)
    have hc' : c < 256 := hb c (by simp)
    have hrest : ∀ x ∈ rest, x < 256 := fun x hx => hb x (by simp [hx])
    have hl : rest.length % 3 = 2 := by
      simp only [List.length_cons] at hlen
      omega
    obtain ⟨p, hp, hplen, hpall⟩ := ih hrest hl
    refine ⟨base64Char (a / 4) :: base64Char (a % 4 * 16 + b / 16) ::
      base64Char (b % 16 * 4 + c / 64) :: base64Char (c % 64) :: p, by simp [btoa, hp], ?_, ?_⟩
    · simp only [List.length_cons]
      omega
    · intro x hx
      simp only [List.mem_cons] at hx
      rcases hx with rfl | rfl | rfl | rfl | hx
      · apply base64Char_isBase64Alpha; omega
      · apply base64Char_isBase64Alpha; omega
      · apply base64Char_isBase64Alpha; omega
      · apply base64Char_isBase64Alpha; omega
      · exact hpall x hx

theorem verifySignature_of_fields (h : Host) (body header secret T S : Str) (hne : header ≠ [])
    (hts : orStr (getPart (parseSignature header) (lit "ts"))
      (getPart (parseSignature header) (lit "t")) = some T) (hT : T ≠ [])
    (hsig : orStr (getPart (parseSignature header) (lit "h1"))
      (getPart (parseSignature header) (lit "v1")) = some S) (hS : S ≠ []) :
    verifySignature h body header secret =
      if (trim S).length = (hmacSha256Hex h secret (T ++ lit ":" ++ body)).length then
        timingSafeEqual (hmacSha256Hex h secret (T ++ lit ":" ++ body)) (h.toLowerCase (trim S))
      else if (trim S).length = (hmacSha256Base64 h secret (T ++ lit ":" ++ body)).length then
        timingSafeEqual (hmacSha256Base64 h secret (T ++ lit ":" ++ body)) (trim S)
      else
        timingSafeEqual (hmacSha256Hex h secret (T ++ lit ":" ++ body)) (h.toLowerCase (trim S))
          || timingSafeEqual (hmacSha256Base64 h secret (T ++ lit ":" ++ body)) (trim S) := by
  unfold verifySignature
  simp only [hne, if_false]
  rw [hts, hsig]
  cases T with
  | nil => exact absurd rfl hT
  | cons t ts =>
    cases S with
    | nil => exact absurd rfl hS
    | cons s ss => rfl

theorem signatureHeader_ne_nil (T V : Str) : signatureHeader T V ≠ [] := by
  simp [signatureHeader, lit]

theorem header_fields (T V : Str) (hT : WellFormedTimestamp T) (hV59 : 59 ∉ V) (hV44 : 44 ∉ V) :
    orStr (getPart (parseSignature (signatureHeader T V)) (lit "ts"))
        (getPart (parseSignature (signatureHeader T V)) (lit "t")) = some T
    ∧ orStr (getPart (parseSignature (signatureHeader T V)) (lit "h1"))
        (getPart (parseSignature (signatureHeader T V)) (lit "v1"))
      = orStr (some (trim ((V.rdropWhile isWhiteSpace).takeWhile (fun c => c != 61)))) none := by
  rw [parseSignature_header T V hT hV59 hV44]
  have e1 : (lit "ts" == lit "h1") = false := by decide
  have e2 : (lit "t" == lit "h1") = false := by decide
  have e3 : (lit "v1" == lit "h1") = false := by decide
  have e4 : (lit "v1" == lit "ts") = false := by decide
  have e5 : (lit "t" == lit "ts") = false := by decide
  constructor
  · simp only [getPart, List.lookup, e1, beq_self_eq_true]
    exact orStr_of_ne_nil T _ hT.1
  · simp only [getPart, List.lookup, e3, e4, beq_self_eq_true]

/-- C1. For every body, every non-empty secret and every timestamp that is not
empty, has no leading or trailing white space and contains none of `;`, `,`, `=`,
`verifySignature(body, "ts=<timestamp>;h1=<sig>", secret)` is true when `<sig>` is the
lower-case hexadecimal rendering of the HMAC of `"<timestamp>:<body>"`. The digest is
any function that returns 32 bytes; of `toLowerCase` only its action on ASCII text
is used. -/
theorem verifySignature_accepts_hex (h : Host) (hmac : Hmac32 h) (hlow : LowerAscii h)
    (body secret timestamp : Str) (_hsecret : secret ≠ []) (hts : WellFormedTimestamp timestamp) :
    verifySignature h body
      (signatureHeader timestamp (hmacSha256Hex h secret (timestamp ++ lit ":" ++ body)))
      secret = true := by
  obtain ⟨hlen, hbytes⟩ := hmac secret (timestamp ++ lit ":" ++ body)
  set hex := hmacSha256Hex h secret (timestamp ++ lit ":" ++ body) with hhex
  have hall : ∀ c ∈ hex, isLowerHex c = true := bufferToHex_isLowerHex _ hbytes
  have hhexlen : hex.length = 64 := by
    rw [hhex, hmacSha256Hex, bufferToHex_length _ hbytes, hlen]
  have hne : hex ≠ [] := by
    intro e; rw [e] at hhexlen; simp at hhexlen
  have h59 : 59 ∉ hex := fun hc => (isLowerHex_facts 59 (hall 59 hc)).2.2.1 rfl
  have h44 : 44 ∉ hex := fun hc => (isLowerHex_facts 44 (hall 44 hc)).2.2.2.1 rfl
  have hws : ∀ c ∈ hex, isWhiteSpace c = false := fun c hc => (isLowerHex_facts c (hall c hc)).2.2.2.2.2
  have hr : hex.rdropWhile isWhiteSpace = hex :=
    List.rdropWhile_eq_self_iff.mpr (fun hs => by simp [hws _ (List.getLast_mem hs)])
  have htake : hex.takeWhile (fun c => c != 61) = hex := by
    apply List.takeWhile_eq_self_iff.mpr
    intro c hc
    have : c ≠ 61 := (isLowerHex_facts c (hall c hc)).2.2.2.2.1
    simpa using this
  have htrim : trim hex = hex := trim_of_no_whiteSpace hex hws
  obtain ⟨f1, f2⟩ := header_fields timestamp hex hts h59 h44
  rw [hr, htake, htrim, orStr_of_ne_nil hex none hne] at f2
  rw [verifySignature_of_fields h body _ secret timestamp hex (signatureHeader_ne_nil _ _)
    f1 hts.1 f2 hne]
  rw [htrim, ← hhex, if_pos rfl]
  rw [hlow hex (fun c hc => (isLowerHex_facts c (hall c hc)).1)]
  rw [map_eq_self asciiLower hex (fun c hc => (isLowerHex_facts c (hall c hc)).2.1)]
  exact (timingSafeEqual_iff hex hex).mpr rfl



theorem trim_sublist (s : Str) : (trim s).Sublist s := by
  rw [trim_eq_rdropWhile]
  exact (( List.rdropWhile_prefix isWhiteSpace _).sublist).trans (List.dropWhile_sublist _)

theorem trim_ends (s : Str) (hs : trim s ≠ []) :
    isWhiteSpace ((trim s).head hs) = false ∧ isWhiteSpace ((trim s).getLast hs) = false := by
  have hs' := hs
  rw [trim_eq_rdropWhile] at hs'
  constructor
  · obtain ⟨t, ht⟩ := List.rdropWhile_prefix isWhiteSpace (s.dropWhile isWhiteSpace)
    have hd : s.dropWhile isWhiteSpace ≠ [] := by
      intro e
      rw [e] at hs'
      simp at hs'
    have h1 : (trim s).head hs = (s.dropWhile isWhiteSpace).head hd := by
      have : (s.dropWhile isWhiteSpace).head hd
          = ((s.dropWhile isWhiteSpace).rdropWhile isWhiteSpace ++ t).head (by simp [hs']) := by
        congr 1
        exact ht.symm
      rw [this, List.head_append_of_ne_nil hs']
      rfl
    rw [h1]
    have := List.head_dropWhile_not isWhiteSpace s hd
    simpa using this
  · have := List.rdropWhile_last_not isWhiteSpace (s.dropWhile isWhiteSpace) hs'
    simpa [trim_eq_rdropWhile] using this

theorem trim_trim (s : Str) : trim (trim s) = trim s := by
  by_cases hs : trim s = []
  · rw [hs]; rfl
  · obtain ⟨h1, h2⟩ := trim_ends s hs
    exact trim_eq_self_of_ends (trim s) hs h1 h2



theorem verifySignature_of_missing (h : Host) (body header secret : Str)
    (hmiss :
      (orStr (getPart (parseSignature header) (lit "ts"))
          (getPart (parseSignature header) (lit "t")) = none
        ∨ orStr (getPart (parseSignature header) (lit "ts"))
          (getPart (parseSignature header) (lit "t")) = some [])
      ∨ (orStr (getPart (parseSignature header) (lit "h1"))
          (getPart (parseSignature header) (lit "v1")) = none
        ∨ orStr (getPart (parseSignature header) (lit "h1"))
          (getPart (parseSignature header) (lit "v1")) = some [])) :
    verifySignature h body header secret = false := by
  unfold verifySignature
  split_ifs
  · rfl
  · dsimp only
    generalize orStr (getPart (parseSignature header) (lit "ts"))
      (getPart (parseSignature header) (lit "t")) = a at hmiss
    generalize orStr (getPart (parseSignature header) (lit "h1"))
      (getPart (parseSignature header) (lit "v1")) = b at hmiss
    rcases hmiss with (rfl | rfl) | (rfl | rfl)
    · rfl
    · rfl
    · cases a with
      | none => rfl
      | some t => cases t <;> rfl
    · cases a with
      | none => rfl
      | some t => cases t <;> rfl

theorem hex_props (h : Host) (hmac : Hmac32 h) (secret msg : Str) :
    (hmacSha256Hex h secret msg).length = 64
      ∧ ∀ c ∈ hmacSha256Hex h secret msg, isLowerHex c = true := by
  obtain ⟨hlen, hbytes⟩ := hmac secret msg
  exact ⟨by rw [hmacSha256Hex, bufferToHex_length _ hbytes, hlen],
    bufferToHex_isLowerHex _ hbytes⟩

theorem base64_props (h : Host) (hmac : Hmac32 h) (secret msg : Str) :
    (hmacSha256Base64 h secret msg).length = 44 ∧ 61 ∈ hmacSha256Base64 h secret msg := by
  obtain ⟨hlen, hbytes⟩ := hmac secret msg
  obtain ⟨p, hp, hplen, _⟩ := btoa_padded _ hbytes (by rw [hlen])
  unfold hmacSha256Base64 bufferToBase64
  rw [hp]
  constructor
  · rw [hlen] at hplen
    simp only [List.length_append, List.length_singleton]
    omega
  · simp

theorem lower_eq_hex_ascii (h : Host) (hl2 : LowerNonAscii h) (X hex : Str)
    (hhex : ∀ c ∈ hex, isLowerHex c = true) (he : h.toLowerCase X = hex) :
    ∀ c ∈ X, c < 128 := by
  intro c hc
  by_contra hge
  obtain ⟨d, hd, hd'⟩ := hl2 X ⟨c, hc, by omega⟩
  rw [he] at hd
  have := hhex d hd
  simp only [isLowerHex, Bool.or_eq_true, Bool.and_eq_true, decide_eq_true_eq] at this
  omega

theorem verifySignature_header_true (h : Host) (hmac : Hmac32 h) (hl1 : LowerAscii h)
    (hl2 : LowerNonAscii h) (body secret T V : Str) (hT : WellFormedTimestamp T)
    (h59 : 59 ∉ V) (h44 : 44 ∉ V)
    (hacc : verifySignature h body (signatureHeader T V) secret = true) :
    (trim ((V.rdropWhile isWhiteSpace).takeWhile (fun c => c != 61))).length = 64
      ∧ (∀ c ∈ trim ((V.rdropWhile isWhiteSpace).takeWhile (fun c => c != 61)), c < 128)
      ∧ (trim ((V.rdropWhile isWhiteSpace).takeWhile (fun c => c != 61))).map asciiLower
          = hmacSha256Hex h secret (T ++ lit ":" ++ body) := by
  obtain ⟨f1, f2⟩ := header_fields T V hT h59 h44
  set X := trim ((V.rdropWhile isWhiteSpace).takeWhile (fun c => c != 61)) with hX
  obtain ⟨hhexlen, hhexall⟩ := hex_props h hmac secret (T ++ lit ":" ++ body)
  obtain ⟨hb64len, hb64mem⟩ := base64_props h hmac secret (T ++ lit ":" ++ body)
  by_cases hXne : X = []
  · rw [hXne] at f2
    have := verifySignature_of_missing h body (signatureHeader T V) secret
      (Or.inr (Or.inl f2))
    rw [this] at hacc
    cases hacc
  · rw [orStr_of_ne_nil X none hXne] at f2
    rw [verifySignature_of_fields h body _ secret T X (signatureHeader_ne_nil _ _)
      f1 hT.1 f2 hXne] at hacc
    have htX : trim X = X := by rw [hX, trim_trim]
    rw [htX] at hacc
    have hX61 : 61 ∉ X := by
      intro hm
      have h1 := (trim_sublist _).subset hm
      have := List.mem_takeWhile_imp h1
      simp at this
    have hb64 : timingSafeEqual (hmacSha256Base64 h secret (T ++ lit ":" ++ body)) X = false := by
      cases hb : timingSafeEqual (hmacSha256Base64 h secret (T ++ lit ":" ++ body)) X with
      | false => rfl
      | true =>
        exfalso
        rw [timingSafeEqual_iff] at hb
        exact hX61 (hb ▸ hb64mem)
    have key : h.toLowerCase X = hmacSha256Hex h secret (T ++ lit ":" ++ body) →
        X.length = 64 ∧ (∀ c ∈ X, c < 128)
          ∧ X.map asciiLower = hmacSha256Hex h secret (T ++ lit ":" ++ body) := by
      intro he
      have hasc := lower_eq_hex_ascii h hl2 X _ hhexall he
      have hmap := hl1 X hasc
      rw [hmap] at he
      refine ⟨?_, hasc, he⟩
      have := congrArg List.length he
      rw [List.length_map, hhexlen] at this
      exact this
    rw [hb64, Bool.or_false] at hacc
    by_cases c1 : X.length = (hmacSha256Hex h secret (T ++ lit ":" ++ body)).length
    · rw [if_pos c1] at hacc
      exact key ((timingSafeEqual_iff _ _).mp hacc).symm
    · rw [if_neg c1] at hacc
      by_cases c2 : X.length = (hmacSha256Base64 h secret (T ++ lit ":" ++ body)).length
      · rw [if_pos c2] at hacc
        cases hacc
      · rw [if_neg c2] at hacc
        exact key ((timingSafeEqual_iff _ _).mp hacc).symm



theorem split_append_sep_gen (sep : Nat) (a b : Str) :
    split sep (a ++ sep :: b) = split sep a ++ split sep b := by
  induction a with
  | nil => simp [split]
  | cons c cs ih =>
    by_cases hc : c = sep
    · simp [split, hc] at ih ⊢
      exact ih
    · simp only [List.cons_append, split, hc, if_false]
      have e : cs.append (sep :: b) = cs ++ sep :: b := rfl
      rw [e, ih]
      obtain ⟨p, ps, hp⟩ := List.exists_cons_of_ne_nil (split_ne_nil sep cs)
      rw [hp]
      rfl

theorem verifySignature_congr (h : Host) (body h1 h2 secret : Str) (hne1 : h1 ≠ [])
    (hne2 : h2 ≠ []) (hp : parseSignature h1 = parseSignature h2) :
    verifySignature h body h1 secret = verifySignature h body h2 secret := by
  unfold verifySignature
  simp only [hne1, hne2, if_false, hp]

theorem parseSignature_header_sep (T pre post : Str) (c : Nat) (hc : c = 59 ∨ c = 44)
    (hpre : 44 ∉ pre) (hT : 44 ∉ T) (hpost : 61 ∉ post) (hpost59 : 59 ∉ post)
    (hpost44 : 44 ∉ post) :
    parseSignature (signatureHeader T (pre ++ c :: post))
      = parseSignature (signatureHeader T pre) := by
  have hA : (signatureHeader T pre).map (fun c => if c = 44 then 59 else c)
      = signatureHeader T pre := by
    apply map_comma_of_not_mem
    intro hm
    simp only [signatureHeader, List.mem_append] at hm
    rcases hm with ((hm | hm) | hm) | hm
    · revert hm; decide
    · exact hT hm
    · revert hm; decide
    · exact hpre hm
  have hmap : (signatureHeader T (pre ++ c :: post)).map (fun c => if c = 44 then 59 else c)
      = signatureHeader T pre ++ 59 :: post := by
    have e : signatureHeader T (pre ++ c :: post) = signatureHeader T pre ++ c :: post := by
      simp [signatureHeader]
    rw [e, List.map_append, hA, List.map_cons, map_comma_of_not_mem post hpost44]
    rcases hc with rfl | rfl <;> rfl
  unfold parseSignature
  rw [hmap, hA, split_append_sep_gen, List.foldl_append, split_of_not_mem 59 post hpost59]
  simp only [List.foldl_cons, List.foldl_nil]
  exact parseChunk_no_eq _ post hpost

theorem value_sublist (V : Str) :
    (trim ((V.rdropWhile isWhiteSpace).takeWhile (fun c => c != 61))).Sublist V :=
  ((trim_sublist _).trans (List.takeWhile_sublist _)).trans
    ( List.rdropWhile_prefix isWhiteSpace V).sublist

/-- C2, the base64 half as the code behaves. For every body, non-empty secret and
well-formed timestamp, `verifySignature` is false on the header whose `<sig>` is the
padded base64 rendering of the HMAC: `parseSignature` keeps the text before the
second `=` only, so the padding is lost and the remaining 43 characters equal
neither rendering. The hexadecimal half is C1. -/
theorem verifySignature_rejects_base64 (h : Host) (hmac : Hmac32 h) (hl1 : LowerAscii h)
    (hl2 : LowerNonAscii h) (body secret timestamp : Str) (_hsecret : secret ≠ [])
    (hts : WellFormedTimestamp timestamp) :
    verifySignature h body
      (signatureHeader timestamp (hmacSha256Base64 h secret (timestamp ++ lit ":" ++ body)))
      secret = false := by
  obtain ⟨hlen, hbytes⟩ := hmac secret (timestamp ++ lit ":" ++ body)
  obtain ⟨p, hp, hplen, hpall⟩ := btoa_padded _ hbytes (by rw [hlen])
  have hV : hmacSha256Base64 h secret (timestamp ++ lit ":" ++ body) = p ++ [61] := hp
  have hVlen : (hmacSha256Base64 h secret (timestamp ++ lit ":" ++ body)).length = 44 :=
    (base64_props h hmac secret _).1
  cases hv : verifySignature h body
      (signatureHeader timestamp (hmacSha256Base64 h secret (timestamp ++ lit ":" ++ body)))
      secret with
  | false => rfl
  | true =>
    exfalso
    have h59 : 59 ∉ hmacSha256Base64 h secret (timestamp ++ lit ":" ++ body) := by
      rw [hV]
      intro hm
      simp only [List.mem_append, List.mem_singleton] at hm
      rcases hm with hm | hm
      · exact (isBase64Alpha_facts 59 (hpall 59 hm)).2.1 rfl
      · cases hm
    have h44 : 44 ∉ hmacSha256Base64 h secret (timestamp ++ lit ":" ++ body) := by
      rw [hV]
      intro hm
      simp only [List.mem_append, List.mem_singleton] at hm
      rcases hm with hm | hm
      · exact (isBase64Alpha_facts 44 (hpall 44 hm)).2.2.1 rfl
      · cases hm
    obtain ⟨hX, _, _⟩ := verifySignature_header_true h hmac hl1 hl2 body secret timestamp _
      hts h59 h44 hv
    have := List.Sublist.length_le
      (value_sublist (hmacSha256Base64 h secret (timestamp ++ lit ":" ++ body)))
    rw [hX, hVlen] at this
    omega

/-- C3, amended. Let the timestamp be well formed and let `<sig>` hold no `;`, `,`, `=`
and no leading or trailing white space. If `verifySignature` accepts
`"ts=<timestamp>;h1=<sig>"`, then replacing one character of `<sig>` by a character
with a different ASCII lower-casing (any other character except the same letter in
the other case) gives a header that `verifySignature` rejects. -/
theorem verifySignature_rejects_mutation (h : Host) (hmac : Hmac32 h) (hl1 : LowerAscii h)
    (hl2 : LowerNonAscii h) (body secret timestamp sig : Str)
    (hts : WellFormedTimestamp timestamp)
    (h59 : 59 ∉ sig) (h44 : 44 ∉ sig) (h61 : 61 ∉ sig) (htrim : trim sig = sig)
    (hacc : verifySignature h body (signatureHeader timestamp sig) secret = true)
    (i c : Nat) (hi : i < sig.length) (hc : asciiLower c ≠ asciiLower (sig.getD i 0)) :
    verifySignature h body (signatureHeader timestamp (sig.set i c)) secret = false := by
  -- what acceptance says about the signature text
  have hne : sig ≠ [] := by
    intro e; rw [e] at hi; simp at hi
  obtain ⟨_, hlast⟩ := trim_fixed_ends sig hne htrim
  have hr : sig.rdropWhile isWhiteSpace = sig :=
    List.rdropWhile_eq_self_iff.mpr (fun hs => by simp [hlast])
  have htake : sig.takeWhile (fun c => c != 61) = sig := by
    apply List.takeWhile_eq_self_iff.mpr
    intro d hd
    have : d ≠ 61 := fun e => h61 (e ▸ hd)
    simpa using this
  obtain ⟨hlen, _, hmap⟩ := verifySignature_header_true h hmac hl1 hl2 body secret timestamp sig
    hts h59 h44 hacc
  rw [hr, htake, htrim] at hlen hmap
  have hset : sig.set i c = sig.take i ++ c :: sig.drop (i + 1) := by
    rw [List.set_eq_take_append_cons_drop, if_pos hi]
  cases hv : verifySignature h body (signatureHeader timestamp (sig.set i c)) secret with
  | false => rfl
  | true =>
    exfalso
    by_cases hsep : c = 59 ∨ c = 44
    · -- the signature is cut at the new separator
      have hpre44 : 44 ∉ sig.take i := fun hm => h44 (List.mem_of_mem_take hm)
      have hpre59 : 59 ∉ sig.take i := fun hm => h59 (List.mem_of_mem_take hm)
      have hpost61 : 61 ∉ sig.drop (i + 1) := fun hm => h61 (List.mem_of_mem_drop hm)
      have hpost59 : 59 ∉ sig.drop (i + 1) := fun hm => h59 (List.mem_of_mem_drop hm)
      have hpost44 : 44 ∉ sig.drop (i + 1) := fun hm => h44 (List.mem_of_mem_drop hm)
      rw [hset, verifySignature_congr h body _ (signatureHeader timestamp (sig.take i)) secret
        (signatureHeader_ne_nil _ _) (signatureHeader_ne_nil _ _)
        (parseSignature_header_sep timestamp _ _ c hsep hpre44 hts.2.2.2.1 hpost61 hpost59
          hpost44)] at hv
      obtain ⟨hX, _, _⟩ := verifySignature_header_true h hmac hl1 hl2 body secret timestamp _
        hts hpre59 hpre44 hv
      have := List.Sublist.length_le (value_sublist (sig.take i))
      rw [hX, List.length_take] at this
      omega
    · -- the whole mutated text is compared
      have hc59 : c ≠ 59 := fun e => hsep (Or.inl e)
      have hc44 : c ≠ 44 := fun e => hsep (Or.inr e)
      have hm59 : 59 ∉ sig.set i c := by
        intro hm
        rcases List.mem_or_eq_of_mem_set hm with hm | hm
        · exact h59 hm
        · exact hc59 hm.symm
      have hm44 : 44 ∉ sig.set i c := by
        intro hm
        rcases List.mem_or_eq_of_mem_set hm with hm | hm
        · exact h44 hm
        · exact hc44 hm.symm
      obtain ⟨hX, _, hXmap⟩ := verifySignature_header_true h hmac hl1 hl2 body secret timestamp
        _ hts hm59 hm44 hv
      have hXeq := (value_sublist (sig.set i c)).eq_of_length
        (by rw [hX, List.length_set, hlen])
      rw [hXeq, ← hmap] at hXmap
      have := congrArg (fun l => l.getD i 0) hXmap
      simp only [List.getD_eq_getElem?_getD, List.getElem?_map, List.getElem?_set_self hi,
        List.getElem?_eq_getElem hi, Option.map_some', Option.getD_some] at this
      apply hc
      rw [this, List.getD_eq_getElem _ _ hi]



/-! ## The example host -/

theorem demoHost_hmac32 : Hmac32 demoHost := by
  intro key msg
  by_cases hk : key = lit "secret" ∧ msg = lit "1700000000:\x7b\x7d"
  · simp only [demoHost, hk, and_self, if_true]
    decide
  · simp only [demoHost, hk, if_false, List.length_replicate, true_and]
    intro b hb
    rw [List.eq_of_mem_replicate hb]
    decide

theorem demoHost_lowerAscii : LowerAscii demoHost := fun _ _ => rfl

theorem demoHost_lowerNonAscii : LowerNonAscii demoHost := by
  rintro s ⟨c, hc, hge⟩
  refine ⟨asciiLower c, List.mem_map_of_mem _ hc, Or.inl ?_⟩
  unfold asciiLower
  split_ifs <;> omega

theorem wellFormed_example : WellFormedTimestamp (lit "1700000000") := by
  unfold WellFormedTimestamp
  decide

/-- Witness of C1: the header built from the real HMAC-SHA256 of `1700000000:{}`
under the key `secret`. -/
theorem verifySignature_accepts_hex_witness :
    Hmac32 demoHost ∧ LowerAscii demoHost ∧ lit "secret" ≠ []
      ∧ WellFormedTimestamp (lit "1700000000")
      ∧ verifySignature demoHost (lit "\x7b\x7d")
          (signatureHeader (lit "1700000000")
            (hmacSha256Hex demoHost (lit "secret") (lit "1700000000" ++ lit ":" ++ lit "\x7b\x7d")))
          (lit "secret") = true :=
  ⟨demoHost_hmac32, demoHost_lowerAscii, by decide, wellFormed_example,
    verifySignature_accepts_hex demoHost demoHost_hmac32 demoHost_lowerAscii (lit "\x7b\x7d")
      (lit "secret") (lit "1700000000") (by decide) wellFormed_example⟩

/-- The two renderings of the example digest are the ones the platform produces. -/
theorem demoHost_renderings :
    hmacSha256Hex demoHost (lit "secret") (lit "1700000000" ++ lit ":" ++ lit "\x7b\x7d")
        = lit "90d1dfc305363e56438c2a03dac8b91f27a9842b7e361afe3743831bca23c856"
      ∧ hmacSha256Base64 demoHost (lit "secret") (lit "1700000000" ++ lit ":" ++ lit "\x7b\x7d")
        = lit "kNHfwwU2PlZDjCoD2si5HyephCt+Nhr+N0ODG8ojyFY=" := by
  decide

theorem verifySignature_rejects_base64_witness :
    Hmac32 demoHost ∧ LowerAscii demoHost ∧ LowerNonAscii demoHost ∧ lit "secret" ≠ []
      ∧ WellFormedTimestamp (lit "1700000000")
      ∧ verifySignature demoHost (lit "\x7b\x7d")
          (signatureHeader (lit "1700000000") (lit "kNHfwwU2PlZDjCoD2si5HyephCt+Nhr+N0ODG8ojyFY="))
          (lit "secret") = false :=
  ⟨demoHost_hmac32, demoHost_lowerAscii, demoHost_lowerNonAscii, by decide, wellFormed_example,
    verifySignature_rejects_base64 demoHost demoHost_hmac32 demoHost_lowerAscii
      demoHost_lowerNonAscii (lit "\x7b\x7d") (lit "secret") (lit "1700000000") (by decide)
      wellFormed_example⟩

/-- Counterexample of C3 as stated: three accepted headers that stay accepted
after one character of `<sig>` is replaced by a different one. -/
theorem signature_mutation_counterexample :
    -- an upper-case letter for the same lower-case letter
    (verifySignature demoHost (lit "\x7b\x7d")
        (signatureHeader (lit "1700000000")
          (lit "90d1dfc305363e56438c2a03dac8b91f27a9842b7e361afe3743831bca23c856"))
        (lit "secret") = true
      ∧ (lit "90d1dfc305363e56438c2a03dac8b91f27a9842b7e361afe3743831bca23c856").getD 2 0 ≠ 68
      ∧ verifySignature demoHost (lit "\x7b\x7d")
        (signatureHeader (lit "1700000000")
          ((lit "90d1dfc305363e56438c2a03dac8b91f27a9842b7e361afe3743831bca23c856").set 2 68))
        (lit "secret") = true)
    -- a trailing blank replaced by a tab
    ∧ (verifySignature demoHost (lit "\x7b\x7d")
        (signatureHeader (lit "1700000000")
          (lit "90d1dfc305363e56438c2a03dac8b91f27a9842b7e361afe3743831bca23c856 "))
        (lit "secret") = true
      ∧ verifySignature demoHost (lit "\x7b\x7d")
        (signatureHeader (lit "1700000000")
          ((lit "90d1dfc305363e56438c2a03dac8b91f27a9842b7e361afe3743831bca23c856 ").set 64 9))
        (lit "secret") = true)
    -- a timestamp text that carries a `v1` entry: the cut `h1` falls back to it
    ∧ (verifySignature demoHost (lit "\x7b\x7d")
        (signatureHeader
          (lit "1700000000;v1=90d1dfc305363e56438c2a03dac8b91f27a9842b7e361afe3743831bca23c856")
          (lit "90d1dfc305363e56438c2a03dac8b91f27a9842b7e361afe3743831bca23c856"))
        (lit "secret") = true
      ∧ verifySignature demoHost (lit "\x7b\x7d")
        (signatureHeader
          (lit "1700000000;v1=90d1dfc305363e56438c2a03dac8b91f27a9842b7e361afe3743831bca23c856")
          ((lit "90d1dfc305363e56438c2a03dac8b91f27a9842b7e361afe3743831bca23c856").set 0 59))
        (lit "secret") = true) := by
  decide


theorem verifySignature_rejects_mutation_witness :
    Hmac32 demoHost ∧ LowerAscii demoHost ∧ LowerNonAscii demoHost
      ∧ WellFormedTimestamp (lit "1700000000")
      ∧ verifySignature demoHost (lit "\x7b\x7d")
          (signatureHeader (lit "1700000000")
            (lit "90d1dfc305363e56438c2a03dac8b91f27a9842b7e361afe3743831bca23c856"))
          (lit "secret") = true
      ∧ verifySignature demoHost (lit "\x7b\x7d")
          (signatureHeader (lit "1700000000")
            ((lit "90d1dfc305363e56438c2a03dac8b91f27a9842b7e361afe3743831bca23c856").set 0 56))
          (lit "secret") = false :=
  ⟨demoHost_hmac32, demoHost_lowerAscii, demoHost_lowerNonAscii, wellFormed_example, by decide,
    verifySignature_rejects_mutation demoHost demoHost_hmac32 demoHost_lowerAscii
      demoHost_lowerNonAscii (lit "\x7b\x7d") (lit "secret") (lit "1700000000")
      (lit "90d1dfc305363e56438c2a03dac8b91f27a9842b7e361afe3743831bca23c856")
      wellFormed_example (by decide) (by decide) (by decide) (by decide) (by decide) 0 56
      (by decide) (by decide)⟩

theorem orStr_of_no_value (parts : List (Str × Str)) (a b : Str)
    (ha : ¬ hasValue parts a) (hb : ¬ hasValue parts b) :
    orStr (getPart parts a) (getPart parts b) = none
      ∨ orStr (getPart parts a) (getPart parts b) = some [] := by
  have key : ∀ k, ¬ hasValue parts k → getPart parts k = none ∨ getPart parts k = some [] := by
    intro k hk
    cases hv : getPart parts k with
    | none => exact Or.inl rfl
    | some v =>
      cases v with
      | nil => exact Or.inr rfl
      | cons c cs => exact absurd ⟨c :: cs, hv, by simp⟩ hk
  rcases key a ha with h1 | h1 <;> rcases key b hb with h2 | h2 <;> simp [h1, h2, orStr]

/-- C4. For every body, secret and header, the empty header included: if the parsed
header has no non-empty value for both of the keys `ts` and `t`, or for both of the
keys `h1` and `v1`, then `verifySignature` is false. It is so for every host, hence
whatever the digest is: no HMAC enters the result. -/
theorem verifySignature_missing_field (h : Host) (body header secret : Str)
    (hmiss :
      (¬ hasValue (parseSignature header) (lit "ts") ∧ ¬ hasValue (parseSignature header) (lit "t"))
      ∨ (¬ hasValue (parseSignature header) (lit "h1")
          ∧ ¬ hasValue (parseSignature header) (lit "v1"))) :
    verifySignature h body header secret = false := by
  apply verifySignature_of_missing
  rcases hmiss with ⟨h1, h2⟩ | ⟨h1, h2⟩
  · exact Or.inl (orStr_of_no_value _ _ _ h1 h2)
  · exact Or.inr (orStr_of_no_value _ _ _ h1 h2)

theorem not_hasValue_of_lookup_none (parts : List (Str × Str)) (k : Str)
    (hk : getPart parts k = none) : ¬ hasValue parts k := by
  rintro ⟨v, hv, _⟩
  rw [hk] at hv
  cases hv

theorem verifySignature_missing_field_witness :
    ((¬ hasValue (parseSignature []) (lit "ts") ∧ ¬ hasValue (parseSignature []) (lit "t"))
      ∧ verifySignature demoHost (lit "\x7b\x7d") [] (lit "secret") = false)
    ∧ ((¬ hasValue (parseSignature (lit "ts=1700000000;h1=")) (lit "h1")
        ∧ ¬ hasValue (parseSignature (lit "ts=1700000000;h1=")) (lit "v1"))
      ∧ verifySignature demoHost (lit "\x7b\x7d") (lit "ts=1700000000;h1=") (lit "secret")
          = false) := by
  have a1 : ¬ hasValue (parseSignature []) (lit "ts") :=
    not_hasValue_of_lookup_none _ _ (by decide)
  have a2 : ¬ hasValue (parseSignature []) (lit "t") :=
    not_hasValue_of_lookup_none _ _ (by decide)
  have b1 : ¬ hasValue (parseSignature (lit "ts=1700000000;h1=")) (lit "h1") := by
    rintro ⟨v, hv, hne⟩
    have : getPart (parseSignature (lit "ts=1700000000;h1=")) (lit "h1") = some [] := by decide
    rw [this] at hv
    exact hne (Option.some.inj hv).symm
  have b2 : ¬ hasValue (parseSignature (lit "ts=1700000000;h1=")) (lit "v1") :=
    not_hasValue_of_lookup_none _ _ (by decide)
  exact ⟨⟨⟨a1, a2⟩, verifySignature_missing_field demoHost _ [] _ (Or.inl ⟨a1, a2⟩)⟩,
    ⟨⟨b1, b2⟩, verifySignature_missing_field demoHost _ _ _ (Or.inr ⟨b1, b2⟩)⟩⟩

/-- What `parseSignature` does with one segment `k=v` that holds no `;` and no `,`,
whose key holds no `=`, is not blank and is not `__proto__`: the key is trimmed, and
the value is the text before the second `=`, trimmed. -/
theorem parseSignature_segment (k v : Str) (hk59 : 59 ∉ k) (hk44 : 44 ∉ k) (hk61 : 61 ∉ k)
    (hv59 : 59 ∉ v) (hv44 : 44 ∉ v) (hkne : trim k ≠ []) (hproto : trim k ≠ lit "__proto__") :
    getPart (parseSignature (k ++ 61 :: v)) (trim k)
      = some (trim ((v.rdropWhile isWhiteSpace).takeWhile (fun c => c != 61))) := by
  have hd : k.dropWhile isWhiteSpace ≠ [] := by
    intro e
    apply hkne
    rw [trim_eq_rdropWhile, e]
    rfl
  have hmap : (k ++ 61 :: v).map (fun c => if c = 44 then 59 else c) = k ++ 61 :: v := by
    apply map_comma_of_not_mem
    intro hm
    rcases List.mem_append.mp hm with hm | hm
    · exact hk44 hm
    · rcases List.mem_cons.mp hm with hm | hm
      · cases hm
      · exact hv44 hm
  have hsplit : split 59 (k ++ 61 :: v) = [k ++ 61 :: v] := by
    apply split_of_not_mem
    intro hm
    rcases List.mem_append.mp hm with hm | hm
    · exact hk59 hm
    · rcases List.mem_cons.mp hm with hm | hm
      · cases hm
      · exact hv59 hm
  have hdrop : (k ++ 61 :: v).dropWhile isWhiteSpace = k.dropWhile isWhiteSpace ++ 61 :: v := by
    rw [List.dropWhile_append]
    have : (k.dropWhile isWhiteSpace).isEmpty = false := by
      cases hk : k.dropWhile isWhiteSpace with
      | nil => exact absurd hk hd
      | cons _ _ => rfl
    rw [this]
    rfl
  have htrim : trim (k ++ 61 :: v)
      = k.dropWhile isWhiteSpace ++ 61 :: v.rdropWhile isWhiteSpace := by
    rw [trim_eq_rdropWhile, hdrop]
    have e : k.dropWhile isWhiteSpace ++ 61 :: v = (k.dropWhile isWhiteSpace ++ [61]) ++ v := by
      simp
    rw [e, rdropWhile_append_of_getLast _ v (by simp) (by simp; decide)]
    simp
  have h61 : 61 ∉ k.dropWhile isWhiteSpace :=
    fun hm => hk61 ((List.dropWhile_sublist _).subset hm)
  have hkey : trim (k.dropWhile isWhiteSpace) = trim k := by
    rw [trim_eq_rdropWhile, trim_eq_rdropWhile, List.dropWhile_idempotent]
  unfold parseSignature
  rw [hmap, hsplit]
  simp only [List.foldl_cons, List.foldl_nil]
  rw [parseChunk_kv [] _ _ _ htrim hd h61, hkey]
  simp [setProp, hproto, getPart, List.lookup]

/-- C5, at a failing input. `parseSignature` maps `h1` of the segment `h1=ab=cd` to
`ab`, not to `ab=cd`: `split("=", 2)` drops what follows the second `=`. The same
cut removes the padding of a base64 signature. -/
theorem parseSignature_cuts_value_at_second_equals :
    getPart (parseSignature (lit "h1=ab=cd")) (lit "h1") = some (lit "ab")
      ∧ getPart (parseSignature (lit "h1=ab=cd")) (lit "h1") ≠ some (lit "ab=cd")
      ∧ getPart
          (parseSignature (lit "ts=1;h1=kNHfwwU2PlZDjCoD2si5HyephCt+Nhr+N0ODG8ojyFY="))
          (lit "h1") = some (lit "kNHfwwU2PlZDjCoD2si5HyephCt+Nhr+N0ODG8ojyFY") := by
  decide



/-! ## Token check and account lookup -/

theorem split_singleton (sep : Nat) (s a : Str) (h : split sep s = [a]) : s = a ∧ sep ∉ a := by
  induction s generalizing a with
  | nil =>
    simp only [split, List.cons.injEq, and_true] at h
    subst h
    simp
  | cons c cs ih =>
    unfold split at h
    by_cases hc : c = sep
    · rw [if_pos hc] at h
      simp only [List.cons.injEq] at h
      exact absurd h.2 (split_ne_nil sep cs)
    · rw [if_neg hc] at h
      obtain ⟨p, ps, hp⟩ := List.exists_cons_of_ne_nil (split_ne_nil sep cs)
      rw [hp] at h
      simp only [List.cons.injEq] at h
      obtain ⟨h1, h2⟩ := h
      subst h2
      obtain ⟨e1, e2⟩ := ih p hp
      subst h1
      subst e1
      refine ⟨rfl, ?_⟩
      intro hm
      rcases List.mem_cons.mp hm with hm | hm
      · exact hc hm.symm
      · exact e2 hm

theorem split_cons_cons (sep : Nat) (s a b : Str) (rest : List Str)
    (h : split sep s = a :: b :: rest) :
    ∃ t, s = a ++ sep :: t ∧ sep ∉ a ∧ split sep t = b :: rest := by
  induction s generalizing a with
  | nil => simp [split] at h
  | cons c cs ih =>
    unfold split at h
    by_cases hc : c = sep
    · rw [if_pos hc] at h
      simp only [List.cons.injEq] at h
      obtain ⟨h1, h2⟩ := h
      subst h1
      exact ⟨cs, by simp [hc], by simp, h2⟩
    · rw [if_neg hc] at h
      obtain ⟨p, ps, hp⟩ := List.exists_cons_of_ne_nil (split_ne_nil sep cs)
      rw [hp] at h
      simp only [List.cons.injEq] at h
      obtain ⟨h1, h2⟩ := h
      subst h1
      rw [h2] at hp
      obtain ⟨t, e1, e2, e3⟩ := ih p hp
      refine ⟨t, by simp [e1], ?_, e3⟩
      intro hm
      rcases List.mem_cons.mp hm with hm | hm
      · exact hc hm.symm
      · exact e2 hm

theorem split_pair_iff (sep : Nat) (s : Str) :
    (split sep s).length = 2
      ↔ ∃ a b, s = a ++ sep :: b ∧ sep ∉ a ∧ sep ∉ b := by
  constructor
  · intro h
    obtain ⟨a, l1, h1⟩ := List.exists_cons_of_ne_nil (split_ne_nil sep s)
    match l1, h1 with
    | [], h1 => rw [h1] at h; simp at h
    | [b], h1 =>
      obtain ⟨t, e1, e2, e3⟩ := split_cons_cons sep s a b [] h1
      obtain ⟨e4, e5⟩ := split_singleton sep t b e3
      exact ⟨a, b, by rw [e1, e4], e2, e5⟩
    | _ :: _ :: _, h1 => rw [h1] at h; simp at h
  · rintro ⟨a, b, rfl, ha, hb⟩
    rw [split_append_sep sep a b ha, split_of_not_mem sep b hb]
    rfl

theorem requireToken_ok_iff (T : Str) (hT : T ≠ []) (authorization : Option Str) :
    (requireToken (some T) authorization).ok = true
      ↔ ∃ scheme value, authorization = some (scheme ++ 32 :: value) ∧ 32 ∉ scheme
          ∧ 32 ∉ value ∧ trim value = T := by
  unfold requireToken
  simp only [Option.getD_some, hT, if_false]
  constructor
  · intro h
    by_cases hlen : (split 32 (authorization.getD [])).length = 2
    · obtain ⟨a, b, hab, ha, hb⟩ := (split_pair_iff 32 _).mp hlen
      have hsplit : split 32 (authorization.getD []) = [a, b] := by
        rw [hab, split_append_sep 32 a b ha, split_of_not_mem 32 b hb]
      rw [hsplit] at h
      simp only [List.length_cons, List.length_nil, if_true] at h
      have hval : trim b = T := by
        by_contra hne
        have e : (List.getD [a, b] 1 [] : Str) = b := rfl
        rw [e, if_pos (Or.inr hne)] at h
        cases h
      refine ⟨a, b, ?_, ha, hb, hval⟩
      cases authorization with
      | none => simp at hab
      | some s => simpa using hab
    · rw [if_neg hlen] at h
      simp at h
  · rintro ⟨a, b, rfl, ha, hb, hval⟩
    have hsplit : split 32 ((some (a ++ 32 :: b) : Option Str).getD []) = [a, b] := by
      rw [Option.getD_some, split_append_sep 32 a b ha, split_of_not_mem 32 b hb]
    rw [hsplit]
    have e : (List.getD [a, b] 1 [] : Str) = b := rfl
    simp only [List.length_cons, List.length_nil, if_true, e, hval, hT, ne_eq, not_true_eq_false,
      or_self, if_false]

/-- C8, amended. With no token configured (unset or empty) every request is
authorized. With a non-empty token `T`, a request is authorized if and only if its
`Authorization` header is `<scheme> <value>` with one space, no space inside either
part, and `<value>` trimmed equal to `T`; the scheme word is not compared. In
particular `"Bearer " + T` is authorized when `T` has no space and no leading or
trailing white space. -/
theorem requireToken_spec (T : Str) (hT : T ≠ []) (authorization : Option Str) :
    (requireToken none authorization).ok = true
      ∧ (requireToken (some []) authorization).ok = true
      ∧ ((requireToken (some T) authorization).ok = true
          ↔ ∃ scheme value, authorization = some (scheme ++ 32 :: value) ∧ 32 ∉ scheme
              ∧ 32 ∉ value ∧ trim value = T)
      ∧ (32 ∉ T → trim T = T → (requireToken (some T) (some (lit "Bearer " ++ T))).ok = true) := by
  refine ⟨rfl, rfl, requireToken_ok_iff T hT authorization, ?_⟩
  intro hsp htrim
  rw [requireToken_ok_iff T hT]
  exact ⟨lit "Bearer", T, by simp [lit], by decide, hsp, htrim⟩

theorem requireToken_spec_witness :
    lit "s3cret" ≠ []
      ∧ (requireToken none (some (lit "Bearer s3cret"))).ok = true
      ∧ (requireToken (some []) (some (lit "Bearer s3cret"))).ok = true
      ∧ ((requireToken (some (lit "s3cret")) (some (lit "Bearer s3cret"))).ok = true
          ↔ ∃ scheme value, some (lit "Bearer s3cret") = some (scheme ++ 32 :: value)
              ∧ 32 ∉ scheme ∧ 32 ∉ value ∧ trim value = lit "s3cret")
      ∧ (32 ∉ lit "s3cret" → trim (lit "s3cret") = lit "s3cret" →
          (requireToken (some (lit "s3cret")) (some (lit "Bearer " ++ lit "s3cret"))).ok = true) :=
  ⟨by decide, requireToken_spec (lit "s3cret") (by decide) (some (lit "Bearer s3cret"))⟩

/-- Counterexample of C8 as stated, in both directions. -/
theorem bearer_comparison_counterexample :
    -- another scheme word is authorized
    (requireToken (some (lit "s3cret")) (some (lit "Basic s3cret"))).ok = true
    -- a token with a space is never authorized
    ∧ (requireToken (some (lit "two words")) (some (lit "Bearer " ++ lit "two words"))).ok = false := by
  decide

theorem requireToken_error (token authorization : Option Str)
    (h : (requireToken token authorization).ok = false) :
    (requireToken token authorization).error = some (lit "unauthorized") := by
  unfold requireToken at h ⊢
  dsimp only at h ⊢
  split_ifs at h ⊢ <;> rfl

/-- C7, amended. For every `GET /account` request whose `email` and `account_id`
parameters are both absent or blank after trimming, the handler answers 400
`missing_identifier` when `requireToken` accepts the request (no token configured, or
a matching header) and 401 `unauthorized` when it does not: the token is checked
first. -/
theorem handleAccount_blank_identifiers (h : Host) (hlow : LowerAscii h) (env : Env)
    (authorization email accountId : Option Str)
    (hemail : trim (email.getD []) = []) (haccount : trim (accountId.getD []) = []) :
    handleAccount h env authorization email accountId
      = some (if (requireToken env.BILLING_API_TOKEN authorization).ok
          then jsonResponse (errorBody (lit "missing_identifier")) 400
          else jsonResponse (errorBody (lit "unauthorized")) 401) := by
  have hl : h.toLowerCase [] = [] := hlow [] (by simp)
  unfold handleAccount
  dsimp only
  cases hok : (requireToken env.BILLING_API_TOKEN authorization).ok with
  | false =>
    rw [requireToken_error _ _ hok]
    rfl
  | true =>
    simp [hemail, haccount, hl]

theorem handleAccount_blank_identifiers_witness :
    LowerAscii demoHost ∧ trim ((some (lit "  ") : Option Str).getD []) = []
      ∧ trim ((none : Option Str).getD []) = []
      ∧ handleAccount demoHost ⟨some (lit "s3cret"), none, []⟩ (some (lit "Bearer s3cret"))
          (some (lit "  ")) none
        = some (if (requireToken (some (lit "s3cret")) (some (lit "Bearer s3cret"))).ok
            then jsonResponse (errorBody (lit "missing_identifier")) 400
            else jsonResponse (errorBody (lit "unauthorized")) 401) :=
  ⟨demoHost_lowerAscii, by decide, by decide,
    handleAccount_blank_identifiers demoHost demoHost_lowerAscii ⟨some (lit "s3cret"), none, []⟩
      (some (lit "Bearer s3cret")) (some (lit "  ")) none (by decide) (by decide)⟩

/-- Counterexample of C7 as stated: a token is configured, the request has no
`Authorization` header and no identifier, and the answer is 401 `unauthorized`. -/
theorem missing_identifier_counterexample :
    (handleAccount demoHost ⟨some (lit "s3cret"), none, []⟩ none none none).map
        (fun r => r.status) = some 401
    ∧ (handleAccount demoHost ⟨some (lit "s3cret"), none, []⟩ none none none).map
        (fun r => field r.payload (lit "error")) = some (.str (lit "unauthorized")) := by
  constructor <;> rfl


/-! ## Event normalisation and the webhook branch -/

theorem getProp_of_truthy (v : JSValue) (k : Str) (hv : truthy v = true) :
    getProp v k = some (field v k) := by
  cases v <;> simp_all [truthy, getProp, field]

theorem truthy_jsOr_emptyObject (v : JSValue) : truthy (jsOr v emptyObject) = true := by
  unfold jsOr
  split_ifs with h
  · exact h
  · rfl

theorem payloadData_truthy (payload data : JSValue) (h : payloadData payload = some data) :
    truthy data = true := by
  unfold payloadData at h
  cases hp : getProp payload (lit "data") with
  | none => rw [hp] at h; cases h
  | some d =>
    rw [hp] at h
    simp only [Option.map_some', Option.some.injEq] at h
    rw [← h]
    exact truthy_jsOr_emptyObject d

theorem planEndValue_eq (data : JSValue) (hd : truthy data = true) :
    planEndValue data
      = some (jsOr (field (jsOr (field data (lit "current_billing_period")) emptyObject)
          (lit "ends_at")) (field data (lit "next_billed_at"))) := by
  unfold planEndValue
  rw [getProp_of_truthy data _ hd, getProp_of_truthy data _ hd]
  simp only [Option.bind_eq_bind, Option.some_bind, Option.pure_def]
  rw [getProp_of_truthy _ _ (truthy_jsOr_emptyObject _)]
  rfl

theorem trialEndValue_eq (data : JSValue) (hd : truthy data = true) :
    trialEndValue data
      = some (jsOr (field data (lit "trial_ends_at")) (field data (lit "trial_end"))) := by
  unfold trialEndValue
  rw [getProp_of_truthy data _ hd, getProp_of_truthy data _ hd]
  rfl

/-- C9, amended. For every payload whose `data.status` (or `data.subscription_status`
when `status` is falsy) lower-cases to `active`, and whose two timestamp values
convert without an exception, `planUpdateFromPayload` returns `plan_status` `active`,
`trial_end` `null` and `plan_end = parseIso(ends_at || next_billed_at)`: the parse of
`ends_at` when it is truthy, of `next_billed_at` otherwise. -/
theorem planUpdateFromPayload_active (h : Host) (now : Int) (payload data : JSValue)
    (planEnd trialEnd : Option Str)
    (hdata : payloadData payload = some data)
    (hstatus : statusOf h data = some (lit "active"))
    (hplan : parseIso h
        (jsOr (field (jsOr (field data (lit "current_billing_period")) emptyObject)
          (lit "ends_at")) (field data (lit "next_billed_at"))) = some planEnd)
    (htrial : parseIso h
        (jsOr (field data (lit "trial_ends_at")) (field data (lit "trial_end")))
        = some trialEnd) :
    planUpdateFromPayload h now payload
      = some { plan_status := some (lit "active"), trial_end := none, plan_end := planEnd } := by
  have hd := payloadData_truthy payload data hdata
  unfold planUpdateFromPayload
  simp only [hdata, hstatus, planEndValue_eq data hd, trialEndValue_eq data hd, hplan, htrial,
    Option.bind_eq_bind, Option.some_bind, Option.pure_def, if_true]

/-- The lapsed branch of `planUpdateFromPayload` when both timestamp values convert:
for a status among `canceled`, `paused`, `past_due`, `unpaid` the result has
`plan_status` `active`, `trial_end` `null`, and `plan_end` is the parsed period end
when there is one and the current time otherwise, never `null`. -/
theorem planUpdateFromPayload_lapsed (h : Host) (hiso : ∀ t, h.toISOString t ≠ []) (now : Int)
    (payload data : JSValue) (status : Str) (planEnd trialEnd : Option Str)
    (hdata : payloadData payload = some data)
    (hstatus : statusOf h data = some status)
    (hmem : status ∈ [lit "canceled", lit "paused", lit "past_due", lit "unpaid"])
    (hplan : parseIso h
        (jsOr (field (jsOr (field data (lit "current_billing_period")) emptyObject)
          (lit "ends_at")) (field data (lit "next_billed_at"))) = some planEnd)
    (htrial : parseIso h
        (jsOr (field data (lit "trial_ends_at")) (field data (lit "trial_end")))
        = some trialEnd) :
    planUpdateFromPayload h now payload
      = some { plan_status := some (lit "active"), trial_end := none,
               plan_end := some (planEnd.getD (nowIso h now)) } := by
  have hd := payloadData_truthy payload data hdata
  have h1 : status ≠ lit "active" := by
    intro e; rw [e] at hmem; revert hmem; decide
  have h2 : status ≠ lit "trialing" := by
    intro e; rw [e] at hmem; revert hmem; decide
  have hor : orStr planEnd (some (nowIso h now)) = some (planEnd.getD (nowIso h now)) := by
    cases planEnd with
    | none => rfl
    | some p =>
      cases p with
      | cons c cs => rfl
      | nil =>
        exfalso
        unfold parseIso at hplan
        split_ifs at hplan
        · cases hplan
        · split at hplan
          · cases hplan
          · cases hplan
          · rename_i t _
            simp only [Option.some.injEq] at hplan
            have hne := hiso t
            revert hplan
            unfold stripMillis
            split
            · split_ifs
              · simp
              · exact fun e => hne e
            · exact fun e => hne e
  unfold planUpdateFromPayload
  simp only [hdata, hstatus, planEndValue_eq data hd, trialEndValue_eq data hd, hplan, htrial,
    Option.bind_eq_bind, Option.some_bind, Option.pure_def, h1, h2, if_false, hmem, if_true, hor]


theorem planUpdateFromPayload_active_witness :
    payloadData activeEmptyEndsAt = some (field activeEmptyEndsAt (lit "data"))
      ∧ statusOf demoHost (field activeEmptyEndsAt (lit "data")) = some (lit "active")
      ∧ planUpdateFromPayload demoHost 0 activeEmptyEndsAt
        = some { plan_status := some (lit "active"), trial_end := none,
                 plan_end := some (lit "2025-01-15T10:00:00Z") } :=
  ⟨rfl, by decide,
    planUpdateFromPayload_active demoHost 0 activeEmptyEndsAt
      (field activeEmptyEndsAt (lit "data")) (some (lit "2025-01-15T10:00:00Z")) none
      rfl (by decide) (by decide) (by decide)⟩

/-- Counterexample of C9 as stated: `ends_at` is the empty string, so
`ends_at ?? next_billed_at` is `""` and parses to `null`, yet the code returns the
parse of `next_billed_at`. -/
theorem planEnd_nullish_counterexample :
    statusOf demoHost (field activeEmptyEndsAt (lit "data")) = some (lit "active")
      ∧ field (field (field activeEmptyEndsAt (lit "data")) (lit "current_billing_period"))
          (lit "ends_at") = .str []
      ∧ field (field activeEmptyEndsAt (lit "data")) (lit "next_billed_at")
          = .str (lit "2025-01-15T10:00:00Z")
      ∧ parseIso demoHost (nullishOr (.str []) (.str (lit "2025-01-15T10:00:00Z"))) = some none
      ∧ (planUpdateFromPayload demoHost 0 activeEmptyEndsAt).map (fun u => u.plan_end)
          = some (some (lit "2025-01-15T10:00:00Z")) := by
  refine ⟨by decide, rfl, rfl, by decide, by decide⟩

/-- C10, at a failing input. The payload
`{"data":{"status":"canceled","trial_end":{"toString":0}}}` has a status that
lower-cases to `canceled`, and `planUpdateFromPayload` throws on it: `parseIso` calls
`new Date` on an object whose own `toString` is not callable, a `TypeError`, before
the status is looked at. Nothing is returned. -/
theorem planUpdateFromPayload_canceled_throws (h : Host) (hlow : LowerAscii h) (now : Int) :
    statusOf h (field canceledOwnToString (lit "data")) = some (lit "canceled")
      ∧ planUpdateFromPayload h now canceledOwnToString = none := by
  constructor
  · have e : statusOf h (field canceledOwnToString (lit "data"))
        = some (h.toLowerCase (lit "canceled")) := rfl
    rw [e, hlow _ (by decide)]
    rfl
  · rfl

theorem planUpdateFromPayload_canceled_throws_witness :
    LowerAscii demoHost
      ∧ statusOf demoHost (field canceledOwnToString (lit "data")) = some (lit "canceled")
      ∧ planUpdateFromPayload demoHost 0 canceledOwnToString = none :=
  ⟨demoHost_lowerAscii, planUpdateFromPayload_canceled_throws demoHost demoHost_lowerAscii 0⟩

/-- The lapsed branch on `{"data":{"status":"past_due"},"event_type":"x"}`: `plan_end` is the
clock reading. -/
theorem lapsed_branch_example :
    planUpdateFromPayload demoHost 1736935200000 pastDueNoPeriod
      = some { plan_status := some (lit "active"), trial_end := none,
               plan_end := some (lit "2025-01-15T10:00:00Z") } :=
  planUpdateFromPayload_lapsed demoHost (by intro t; simp only [demoHost]; split_ifs <;> decide)
    1736935200000 pastDueNoPeriod (field pastDueNoPeriod (lit "data")) (lit "past_due") none none
    rfl (by decide) (by decide) (by decide) (by decide)

/-- C6, at a failing input. A webhook request whose body is the JSON text `null`,
with no secret configured or with a signature that verifies, makes the handler
throw: `JSON.parse` succeeds, and `payload.data` on `null` is a `TypeError` outside
the `try`. No response is returned. -/
theorem handleWebhook_null_body_throws (h : Host) (hparse : h.jsonParse (lit "null") = some .null)
    (nowPlan nowRecord : Int) (env : Env) (signature : Option Str)
    (hpass : env.PADDLE_WEBHOOK_SECRET.getD [] = []
      ∨ verifySignature h (lit "null") (signature.getD []) (env.PADDLE_WEBHOOK_SECRET.getD [])
          = true) :
    handleWebhook h nowPlan nowRecord env (lit "null") signature = none := by
  have hcond : ¬ (env.PADDLE_WEBHOOK_SECRET.getD [] ≠ []
      ∧ verifySignature h (lit "null") (signature.getD []) (env.PADDLE_WEBHOOK_SECRET.getD [])
          = false) := by
    rintro ⟨h1, h2⟩
    rcases hpass with hp | hp
    · exact h1 hp
    · rw [hp] at h2; cases h2
  have hbody : (if lit "null" = [] then lit "\x7b\x7d" else lit "null") = lit "null" := by decide
  unfold handleWebhook
  simp only [hcond, if_false, hbody, hparse]
  rfl

theorem handleWebhook_null_body_throws_witness :
    demoHost.jsonParse (lit "null") = some .null
      ∧ openEnv.PADDLE_WEBHOOK_SECRET.getD [] = []
      ∧ handleWebhook demoHost 0 0 openEnv (lit "null") none = none :=
  ⟨rfl, by decide,
    handleWebhook_null_body_throws demoHost rfl 0 0 openEnv none (Or.inl (by decide))⟩



/-! ## Comparison and the whole of `verifySignature` -/

/-- C18. `timingSafeEqual(a, b)` is true if and only if `a = b`; it is false whenever
the lengths differ; and for equal lengths the value accumulated by `|=` over the
`^` of the code units is 0 exactly when the two strings agree at every position. -/
theorem timingSafeEqual_decides_equality (a b : Str) :
    (timingSafeEqual a b = true ↔ a = b)
      ∧ (a.length ≠ b.length → timingSafeEqual a b = false)
      ∧ (a.length = b.length →
          ((List.range a.length).foldl
              (fun result i => result ||| (a.getD i 0 ^^^ b.getD i 0)) 0 = 0
            ↔ ∀ i, i < a.length → a.getD i 0 = b.getD i 0)) := by
  refine ⟨timingSafeEqual_iff a b, ?_, ?_⟩
  · intro hlen
    unfold timingSafeEqual
    rw [if_pos hlen]
  · intro _
    rw [foldl_lor_eq_zero (fun i => a.getD i 0 ^^^ b.getD i 0)]
    constructor
    · intro hx i hi
      exact Nat.xor_eq_zero.mp (hx i hi)
    · intro hx i hi
      exact Nat.xor_eq_zero.mpr (hx i hi)

theorem split_piece_no_sep (sep : Nat) (s : Str) : ∀ p ∈ split sep s, sep ∉ p := by
  induction s with
  | nil =>
    intro p hp
    simp only [split, List.mem_singleton] at hp
    subst hp
    simp
  | cons c cs ih =>
    intro p hp
    unfold split at hp
    by_cases hc : c = sep
    · rw [if_pos hc] at hp
      rcases List.mem_cons.mp hp with rfl | hp
      · simp
      · exact ih p hp
    · rw [if_neg hc] at hp
      obtain ⟨q, qs, hq⟩ := List.exists_cons_of_ne_nil (split_ne_nil sep cs)
      rw [hq] at hp ih
      rcases List.mem_cons.mp hp with rfl | hp
      · intro hm
        rcases List.mem_cons.mp hm with hm | hm
        · exact hc hm.symm
        · exact ih q (by simp) hm
      · exact ih p (by simp [hp])

theorem parseChunk_values (parts : List (Str × Str)) (chunk : Str)
    (hinv : ∀ e ∈ parts, trim e.2 = e.2 ∧ 61 ∉ e.2) :
    ∀ e ∈ parseChunk parts chunk, trim e.2 = e.2 ∧ 61 ∉ e.2 := by
  unfold parseChunk
  split
  · rename_i key value rest heq
    split_ifs with hk
    · exact hinv
    · unfold setProp
      split_ifs
      · exact hinv
      · intro e he
        rcases List.mem_cons.mp he with rfl | he
        · refine ⟨trim_trim value, ?_⟩
          have hmem : value ∈ split 61 (trim chunk) := by
            have : value ∈ (split 61 (trim chunk)).take 2 := by rw [heq]; simp
            exact List.mem_of_mem_take this
          exact fun hm => split_piece_no_sep 61 _ value hmem ((trim_sublist value).subset hm)
        · exact hinv e he
  · exact hinv

theorem parseSignature_values (header : Str) :
    ∀ e ∈ parseSignature header, trim e.2 = e.2 ∧ 61 ∉ e.2 := by
  unfold parseSignature
  generalize split 59 (header.map (fun c => if c = 44 then 59 else c)) = chunks
  have key : ∀ (parts : List (Str × Str)), (∀ e ∈ parts, trim e.2 = e.2 ∧ 61 ∉ e.2) →
      ∀ e ∈ chunks.foldl parseChunk parts, trim e.2 = e.2 ∧ 61 ∉ e.2 := by
    induction chunks with
    | nil => intro parts hp; exact hp
    | cons c cs ih =>
      intro parts hp
      exact ih (parseChunk parts c) (parseChunk_values parts c hp)
  exact key [] (by simp)

theorem lookup_mem (parts : List (Str × Str)) (k v : Str) (h : parts.lookup k = some v) :
    ∃ e ∈ parts, e.2 = v := by
  induction parts with
  | nil => simp at h
  | cons e es ih =>
    obtain ⟨k', v'⟩ := e
    rw [List.lookup_cons] at h
    split at h
    · exact ⟨(k', v'), by simp, by simpa using h⟩
    · obtain ⟨e, he, hv⟩ := ih h
      exact ⟨e, by simp [he], hv⟩

theorem orStr_cases (a b c : Option Str) (h : orStr a b = c) : a = c ∨ b = c := by
  unfold orStr at h
  split at h
  · exact Or.inl h
  · exact Or.inr h

theorem parsed_field_clean (header k1 k2 s : Str)
    (h : orStr (getPart (parseSignature header) k1) (getPart (parseSignature header) k2)
      = some s) : trim s = s ∧ 61 ∉ s := by
  rcases orStr_cases _ _ _ h with h1 | h1
  · obtain ⟨e, he, hv⟩ := lookup_mem _ _ _ h1
    exact hv ▸ parseSignature_values header e he
  · obtain ⟨e, he, hv⟩ := lookup_mem _ _ _ h1
    exact hv ▸ parseSignature_values header e he

theorem final_branch_false (h : Host) (hmac : Hmac32 h) (hl1 : LowerAscii h)
    (hl2 : LowerNonAscii h) (secret msg n : Str)
    (h1 : n.length ≠ (hmacSha256Hex h secret msg).length)
    (h2 : n.length ≠ (hmacSha256Base64 h secret msg).length) :
    (timingSafeEqual (hmacSha256Hex h secret msg) (h.toLowerCase n)
      || timingSafeEqual (hmacSha256Base64 h secret msg) n) = false := by
  obtain ⟨hhexlen, hhexall⟩ := hex_props h hmac secret msg
  have a1 : timingSafeEqual (hmacSha256Hex h secret msg) (h.toLowerCase n) = false := by
    cases hv : timingSafeEqual (hmacSha256Hex h secret msg) (h.toLowerCase n) with
    | false => rfl
    | true =>
      exfalso
      have he := ((timingSafeEqual_iff _ _).mp hv).symm
      have hasc := lower_eq_hex_ascii h hl2 n _ hhexall he
      rw [hl1 n hasc] at he
      have := congrArg List.length he
      rw [List.length_map] at this
      exact h1 this
  have a2 : timingSafeEqual (hmacSha256Base64 h secret msg) n = false := by
    cases hv : timingSafeEqual (hmacSha256Base64 h secret msg) n with
    | false => rfl
    | true =>
      exfalso
      have he := (timingSafeEqual_iff _ _).mp hv
      exact h2 (congrArg List.length he).symm
  rw [a1, a2]
  rfl

theorem compare_iff (h : Host) (hmac : Hmac32 h) (hl1 : LowerAscii h) (hl2 : LowerNonAscii h)
    (secret msg n : Str) (hn : 61 ∉ n) :
    (if n.length = (hmacSha256Hex h secret msg).length then
        timingSafeEqual (hmacSha256Hex h secret msg) (h.toLowerCase n)
      else if n.length = (hmacSha256Base64 h secret msg).length then
        timingSafeEqual (hmacSha256Base64 h secret msg) n
      else
        timingSafeEqual (hmacSha256Hex h secret msg) (h.toLowerCase n)
          || timingSafeEqual (hmacSha256Base64 h secret msg) n) = true
      ↔ h.toLowerCase n = hmacSha256Hex h secret msg := by
  obtain ⟨hhexlen, hhexall⟩ := hex_props h hmac secret msg
  obtain ⟨hb64len, hb64mem⟩ := base64_props h hmac secret msg
  have hb64 : timingSafeEqual (hmacSha256Base64 h secret msg) n = false := by
    cases hv : timingSafeEqual (hmacSha256Base64 h secret msg) n with
    | false => rfl
    | true =>
      exfalso
      exact hn (((timingSafeEqual_iff _ _).mp hv) ▸ hb64mem)
  constructor
  · intro hacc
    by_cases c1 : n.length = (hmacSha256Hex h secret msg).length
    · rw [if_pos c1] at hacc
      exact ((timingSafeEqual_iff _ _).mp hacc).symm
    · rw [if_neg c1] at hacc
      by_cases c2 : n.length = (hmacSha256Base64 h secret msg).length
      · rw [if_pos c2, hb64] at hacc
        cases hacc
      · rw [if_neg c2, final_branch_false h hmac hl1 hl2 secret msg n c1 c2] at hacc
        cases hacc
  · intro he
    have hasc := lower_eq_hex_ascii h hl2 n _ hhexall he
    have hlen : n.length = (hmacSha256Hex h secret msg).length := by
      have := congrArg List.length he
      rw [hl1 n hasc, List.length_map] at this
      exact this
    rw [if_pos hlen, he]
    exact (timingSafeEqual_iff _ _).mpr rfl

/-- C19. For every body, header and non-empty secret, `verifySignature` is true if
and only if the parsed header gives a non-empty timestamp `ts` (key `ts`, else `t`)
and a non-empty signature `sig` (key `h1`, else `v1`) whose lower-casing is the
lower-case hexadecimal HMAC of `"<ts>:<body>"`. The last branch, taken when the
length of the signature is that of neither rendering, is false for every text.
The digest is any function that returns 32 bytes; `toLowerCase` is the ASCII
lower-casing on ASCII text and maps no other code unit into `0`-`9`, `a`-`f`. -/
theorem verifySignature_iff (h : Host) (hmac : Hmac32 h) (hl1 : LowerAscii h)
    (hl2 : LowerNonAscii h) (body header secret : Str) (_hsecret : secret ≠ []) :
    (verifySignature h body header secret = true
      ↔ ∃ ts sig,
          orStr (getPart (parseSignature header) (lit "ts"))
            (getPart (parseSignature header) (lit "t")) = some ts ∧ ts ≠ []
          ∧ orStr (getPart (parseSignature header) (lit "h1"))
            (getPart (parseSignature header) (lit "v1")) = some sig ∧ sig ≠ []
          ∧ h.toLowerCase sig = hmacSha256Hex h secret (ts ++ lit ":" ++ body))
    ∧ (∀ ts n : Str,
        n.length ≠ (hmacSha256Hex h secret (ts ++ lit ":" ++ body)).length →
        n.length ≠ (hmacSha256Base64 h secret (ts ++ lit ":" ++ body)).length →
        (timingSafeEqual (hmacSha256Hex h secret (ts ++ lit ":" ++ body)) (h.toLowerCase n)
          || timingSafeEqual (hmacSha256Base64 h secret (ts ++ lit ":" ++ body)) n) = false) := by
  refine ⟨?_, fun ts n => final_branch_false h hmac hl1 hl2 secret _ n⟩
  constructor
  · intro hacc
    cases hts : orStr (getPart (parseSignature header) (lit "ts"))
        (getPart (parseSignature header) (lit "t")) with
    | none =>
      rw [verifySignature_of_missing h body header secret (Or.inl (Or.inl hts))] at hacc
      cases hacc
    | some T =>
      by_cases hT : T = []
      · rw [verifySignature_of_missing h body header secret (Or.inl (Or.inr (hT ▸ hts)))] at hacc
        cases hacc
      · cases hsig : orStr (getPart (parseSignature header) (lit "h1"))
            (getPart (parseSignature header) (lit "v1")) with
        | none =>
          rw [verifySignature_of_missing h body header secret (Or.inr (Or.inl hsig))] at hacc
          cases hacc
        | some S =>
          by_cases hS : S = []
          · rw [verifySignature_of_missing h body header secret
              (Or.inr (Or.inr (hS ▸ hsig)))] at hacc
            cases hacc
          · have hne : header ≠ [] := by
              rintro rfl
              unfold verifySignature at hacc
              simp at hacc
            obtain ⟨htrim, h61⟩ := parsed_field_clean header _ _ S hsig
            rw [verifySignature_of_fields h body header secret T S hne hts hT hsig hS,
              htrim] at hacc
            exact ⟨T, S, rfl, hT, rfl, hS,
              (compare_iff h hmac hl1 hl2 secret _ S h61).mp hacc⟩
  · rintro ⟨T, S, hts, hT, hsig, hS, he⟩
    have hne : header ≠ [] := by
      rintro rfl
      have : orStr (getPart (parseSignature []) (lit "ts")) (getPart (parseSignature []) (lit "t"))
          = none := by decide
      rw [this] at hts
      cases hts
    obtain ⟨htrim, h61⟩ := parsed_field_clean header _ _ S hsig
    rw [verifySignature_of_fields h body header secret T S hne hts hT hsig hS, htrim]
    exact (compare_iff h hmac hl1 hl2 secret _ S h61).mpr he


theorem verifySignature_iff_witness :
    Hmac32 demoHost ∧ LowerAscii demoHost ∧ LowerNonAscii demoHost ∧ lit "secret" ≠ []
      ∧ verifySignature demoHost (lit "\x7b\x7d")
          (lit "t=1700000000, v1=90D1DFC305363E56438C2A03DAC8B91F27A9842B7E361AFE3743831BCA23C856")
          (lit "secret") = true :=
  ⟨demoHost_hmac32, demoHost_lowerAscii, demoHost_lowerNonAscii, by decide,
    ((verifySignature_iff demoHost demoHost_hmac32 demoHost_lowerAscii demoHost_lowerNonAscii
      (lit "\x7b\x7d")
      (lit "t=1700000000, v1=90D1DFC305363E56438C2A03DAC8B91F27A9842B7E361AFE3743831BCA23C856")
      (lit "secret") (by decide)).1).mpr
      ⟨lit "1700000000",
        lit "90D1DFC305363E56438C2A03DAC8B91F27A9842B7E361AFE3743831BCA23C856",
        by decide, by decide, by decide, by decide, by decide⟩⟩

/-! ## Separators -/

theorem map_comma_eq_of_same (a b : Str) (hab : SameUpToSeparators a b) :
    a.map (fun c => if c = 44 then 59 else c) = b.map (fun c => if c = 44 then 59 else c) := by
  unfold SameUpToSeparators at hab
  induction hab with
  | nil => rfl
  | cons hxy _ ih =>
    simp only [List.map_cons, ih, List.cons.injEq, and_true]
    rcases hxy with rfl | ⟨hx | hx, hy | hy⟩ <;> simp [*]

theorem parseSignature_append_sep (header : Str) (c : Nat) (hc : c = 59 ∨ c = 44) :
    parseSignature (header ++ [c]) = parseSignature header := by
  unfold parseSignature
  have e : (header ++ [c]).map (fun c => if c = 44 then 59 else c)
      = header.map (fun c => if c = 44 then 59 else c) ++ 59 :: [] := by
    rw [List.map_append]
    rcases hc with rfl | rfl <;> rfl
  rw [e, split_append_sep_gen, List.foldl_append]
  simp only [split, List.foldl_cons, List.foldl_nil]
  exact parseChunk_no_eq _ [] (by simp)

/-- C17. If `header'` is `header` with any of its `,` and `;` replaced by the other
separator, `parseSignature` gives the same result on both; and a trailing `;` or
`,`, that is an empty last segment, adds no entry. -/
theorem parseSignature_separators (header header' : Str)
    (hsame : SameUpToSeparators header header') :
    parseSignature header = parseSignature header'
      ∧ parseSignature (header ++ lit ";") = parseSignature header
      ∧ parseSignature (header ++ lit ",") = parseSignature header := by
  refine ⟨?_, parseSignature_append_sep header 59 (Or.inl rfl),
    parseSignature_append_sep header 44 (Or.inr rfl)⟩
  unfold parseSignature
  rw [map_comma_eq_of_same header header' hsame]

theorem parseSignature_separators_witness :
    SameUpToSeparators (lit "ts=1700000000;h1=abc, x=1;") (lit "ts=1700000000,h1=abc; x=1,")
      ∧ parseSignature (lit "ts=1700000000;h1=abc, x=1;")
          = parseSignature (lit "ts=1700000000,h1=abc; x=1,")
      ∧ parseSignature (lit "ts=1700000000;h1=abc, x=1;" ++ lit ";")
          = parseSignature (lit "ts=1700000000;h1=abc, x=1;")
      ∧ parseSignature (lit "ts=1700000000;h1=abc, x=1;" ++ lit ",")
          = parseSignature (lit "ts=1700000000;h1=abc, x=1;") :=
  have hs : SameUpToSeparators (lit "ts=1700000000;h1=abc, x=1;")
      (lit "ts=1700000000,h1=abc; x=1,") := by
    unfold SameUpToSeparators
    simp [lit]
  ⟨hs, parseSignature_separators _ _ hs⟩



/-! ## The page size of `GET /transactions` -/

theorem parseInt10_of_rest (s : Str) :
    parseInt10 s =
      match s.dropWhile isWhiteSpace with
      | 45 :: r =>
        if r.takeWhile isDigit = [] then none else some (-(digitsValue (r.takeWhile isDigit) : Int))
      | 43 :: r =>
        if r.takeWhile isDigit = [] then none else some (digitsValue (r.takeWhile isDigit) : Int)
      | r =>
        if r.takeWhile isDigit = [] then none else some (digitsValue (r.takeWhile isDigit) : Int) := by
  unfold parseInt10
  split <;> simp_all

theorem takeWhile_digits (ds : Str) (h : ∀ d ∈ ds, isDigit d = true) :
    ds.takeWhile isDigit = ds :=
  List.takeWhile_eq_self_iff.mpr h

theorem isDigit_not_whiteSpace (d : Nat) (h : isDigit d = true) :
    isWhiteSpace d = false ∧ d ≠ 45 ∧ d ≠ 43 := by
  simp only [isDigit, Bool.and_eq_true, decide_eq_true_eq] at h
  refine ⟨?_, by omega, by omega⟩
  simp only [isWhiteSpace, Bool.or_eq_false_iff, Bool.and_eq_false_iff, beq_eq_false_iff_ne,
    decide_eq_false_iff_not]
  omega

theorem parseInt10_integerText (s : Str) (n : Int) (h : IntegerText s n) :
    parseInt10 s = some n := by
  obtain ⟨ds, hne, hall, hs⟩ := h
  obtain ⟨d, ds', rfl⟩ := List.exists_cons_of_ne_nil hne
  obtain ⟨hws, h45, h43⟩ := isDigit_not_whiteSpace d (hall d (by simp))
  rw [parseInt10_of_rest]
  rcases hs with ⟨rfl, rfl⟩ | ⟨rfl, rfl⟩
  · rw [dropWhile_of_head d ds' hws]
    have : (match (d :: ds' : Str) with
      | 45 :: r =>
        if r.takeWhile isDigit = [] then none else some (-(digitsValue (r.takeWhile isDigit) : Int))
      | 43 :: r =>
        if r.takeWhile isDigit = [] then none else some (digitsValue (r.takeWhile isDigit) : Int)
      | r =>
        if r.takeWhile isDigit = [] then none
        else some (digitsValue (r.takeWhile isDigit) : Int))
        = (if (d :: ds').takeWhile isDigit = [] then none
            else some (digitsValue ((d :: ds').takeWhile isDigit) : Int)) := by
      split
      · rename_i r heq
        simp only [List.cons.injEq] at heq
        exact absurd heq.1 h45
      · rename_i r heq
        simp only [List.cons.injEq] at heq
        exact absurd heq.1 h43
      · rfl
    rw [this, takeWhile_digits _ hall]
    simp
  · rw [dropWhile_of_head 45 (d :: ds') (by decide)]
    simp only [takeWhile_digits _ hall]
    simp

theorem parseInt10_none (s : Str) (h : startsWithInteger s = false) : parseInt10 s = none := by
  rw [parseInt10_of_rest]
  unfold startsWithInteger at h
  split at h
  · rename_i d r heq
    rw [heq]
    simp [List.takeWhile, h]
  · rename_i d r heq
    rw [heq]
    simp [List.takeWhile, h]
  · rename_i d r h1 h2 heq
    rw [heq]
    split
    · rename_i r' e
      simp only [List.cons.injEq] at e
      obtain ⟨rfl, rfl⟩ := e
      cases r with
      | nil => simp
      | cons x xs => exact (h1 x xs rfl rfl).elim
    · rename_i r' e
      simp only [List.cons.injEq] at e
      obtain ⟨rfl, rfl⟩ := e
      cases r with
      | nil => simp
      | cons x xs => exact (h2 x xs rfl rfl).elim
    · simp [List.takeWhile, h]
  · rename_i heq
    rw [heq]
    simp

/-- C16. For every value of the `limit` parameter the page size sent as `per_page`
is between 1 and 20: it is the parameter when that is the text of an integer from 1
to 20, 1 for an integer below 1, 20 for an integer above 20, and 5 when the
parameter is absent, empty or does not start with an integer. -/
theorem transactionsLimit_spec (limit : Option Str) :
    (1 ≤ transactionsLimit limit ∧ transactionsLimit limit ≤ 20)
      ∧ (∀ s n, limit = some s → IntegerText s n →
          transactionsLimit limit = if n < 1 then 1 else if 20 < n then 20 else n)
      ∧ ((limit = none ∨ limit = some [] ∨ ∃ s, limit = some s ∧ startsWithInteger s = false) →
          transactionsLimit limit = 5) := by
  refine ⟨?_, ?_, ?_⟩
  · unfold transactionsLimit
    dsimp only
    omega
  · rintro s n rfl hs
    have hne : s ≠ [] := by
      obtain ⟨ds, hne, _, h | h⟩ := hs
      · rw [h.1]; exact hne
      · rw [h.1]; simp
    obtain ⟨c, cs, rfl⟩ := List.exists_cons_of_ne_nil hne
    unfold transactionsLimit
    simp only [parseInt10_integerText _ n hs]
    split_ifs <;> omega
  · rintro (rfl | rfl | ⟨s, rfl, hs⟩)
    · decide
    · decide
    · cases s with
      | nil => decide
      | cons c cs =>
        unfold transactionsLimit
        simp only [parseInt10_none _ hs]
        decide

theorem transactionsLimit_examples :
    transactionsLimit (some (lit "7")) = 7 ∧ transactionsLimit (some (lit "0")) = 1
      ∧ transactionsLimit (some (lit "-3")) = 1 ∧ transactionsLimit (some (lit "21")) = 20
      ∧ transactionsLimit (some (lit "100000000000000000000000")) = 20
      ∧ transactionsLimit none = 5 ∧ transactionsLimit (some (lit "")) = 5
      ∧ transactionsLimit (some (lit "abc")) = 5 := by
  decide


/-! ## The record of a delivery -/

theorem planUpdateFromPayload_some (h : Host) (now : Int) (payload : JSValue) (u : PlanUpdate)
    (hu : planUpdateFromPayload h now payload = some u) :
    ∃ data status planEnd trialEnd,
      payloadData payload = some data ∧ statusOf h data = some status
        ∧ parseIso h
            (jsOr (field (jsOr (field data (lit "current_billing_period")) emptyObject)
              (lit "ends_at")) (field data (lit "next_billed_at"))) = some planEnd
        ∧ parseIso h (jsOr (field data (lit "trial_ends_at")) (field data (lit "trial_end")))
            = some trialEnd
        ∧ u = (if status = lit "active" then
                { plan_status := some (lit "active"), trial_end := none, plan_end := planEnd }
              else if status = lit "trialing" then
                { plan_status := some (lit "trialing"), trial_end := trialEnd, plan_end := none }
              else if status ∈ [lit "canceled", lit "paused", lit "past_due", lit "unpaid"] then
                { plan_status := some (lit "active"), trial_end := none,
                  plan_end := orStr planEnd (some (nowIso h now)) }
              else { plan_status := none, trial_end := none, plan_end := none }) := by
  unfold planUpdateFromPayload at hu
  cases hdata : payloadData payload with
  | none => rw [hdata] at hu; cases hu
  | some data =>
    have hd := payloadData_truthy payload data hdata
    rw [hdata] at hu
    cases hstatus : statusOf h data with
    | none =>
      simp only [hstatus, Option.bind_eq_bind, Option.some_bind, Option.none_bind] at hu
      cases hu
    | some status =>
      cases hplan : parseIso h
          (jsOr (field (jsOr (field data (lit "current_billing_period")) emptyObject)
            (lit "ends_at")) (field data (lit "next_billed_at"))) with
      | none =>
        simp only [hstatus, planEndValue_eq data hd, hplan, Option.bind_eq_bind,
          Option.some_bind, Option.none_bind] at hu
        cases hu
      | some planEnd =>
        cases htrial : parseIso h
            (jsOr (field data (lit "trial_ends_at")) (field data (lit "trial_end"))) with
        | none =>
          simp only [hstatus, planEndValue_eq data hd, trialEndValue_eq data hd, hplan, htrial,
            Option.bind_eq_bind, Option.some_bind, Option.none_bind] at hu
          cases hu
        | some trialEnd =>
          simp only [hstatus, planEndValue_eq data hd, trialEndValue_eq data hd, hplan, htrial,
            Option.bind_eq_bind, Option.some_bind, Option.pure_def] at hu
          refine ⟨data, status, planEnd, trialEnd, rfl, hstatus, hplan, htrial, ?_⟩
          split_ifs at hu ⊢ <;> exact (Option.some.inj hu).symm

theorem planUpdate_status_cases (h : Host) (now : Int) (payload : JSValue) (u : PlanUpdate)
    (hu : planUpdateFromPayload h now payload = some u) :
    u.plan_status = some (lit "active") ∨ u.plan_status = some (lit "trialing")
      ∨ u.plan_status = none := by
  obtain ⟨data, status, planEnd, trialEnd, _, _, _, _, rfl⟩ :=
    planUpdateFromPayload_some h now payload u hu
  split_ifs
  · exact Or.inl rfl
  · exact Or.inr (Or.inl rfl)
  · exact Or.inl rfl
  · exact Or.inr (Or.inr rfl)

theorem jsOr_jsOr_self (v w : JSValue) : jsOr (jsOr v w) w = jsOr v w := by
  unfold jsOr
  by_cases hv : truthy v = true
  · simp [hv]
  · simp [hv]

theorem inferStatusFromEvent_eq (h : Host) (v : JSValue) :
    inferStatusFromEvent h v
      = (toJSString h (jsOr v (.str []))).map (fun text => fallbackStatus (h.toLowerCase text)) := by
  unfold inferStatusFromEvent fallbackStatus
  cases toJSString h (jsOr v (.str [])) with
  | none => rfl
  | some text =>
    simp only [Option.bind_eq_bind, Option.some_bind, Option.pure_def, Option.map_some']
    split_ifs <;> simp_all

theorem fallbackStatus_cases (text : Str) :
    fallbackStatus text = some (lit "active") ∨ fallbackStatus text = some (lit "trialing")
      ∨ fallbackStatus text = none := by
  unfold fallbackStatus
  split_ifs
  · exact Or.inl rfl
  · exact Or.inr (Or.inl rfl)
  · exact Or.inr (Or.inr rfl)

theorem getProp_some_of_payloadData (payload data : JSValue) (k : Str)
    (h : payloadData payload = some data) : getProp payload k = some (field payload k) := by
  unfold payloadData at h
  cases payload <;> simp_all [getProp, field]

theorem deliveryOf_some (h : Host) (nowPlan nowRecord : Int) (payload : JSValue) (d : Delivery)
    (hd : deliveryOf h nowPlan nowRecord payload = some d) :
    ∃ data custom u text customerId subscriptionId,
      payloadData payload = some data ∧ customData data = some custom
        ∧ toStringOrNull h (field custom (lit "account_id")) = some d.accountId
        ∧ extractEmail h data custom = some d.email
        ∧ planUpdateFromPayload h nowPlan payload = some u
        ∧ toJSString h (jsOr (eventValue payload) (.str [])) = some text
        ∧ d.record = buildRecord h nowRecord d.accountId d.email u
            (fallbackStatus (h.toLowerCase text)) customerId subscriptionId (eventValue payload) := by
  unfold deliveryOf at hd
  simp only [Option.bind_eq_bind, Option.bind_eq_some, Option.pure_def, Option.some.injEq] at hd
  obtain ⟨data, hdata, custom, hcustom, av, hav, accountId, hacc, email, hemail, u, hu, ev, hev,
    fb, hfb, customerId, _, subscriptionId, _, rfl⟩ := hd
  have hcu : truthy custom = true := by
    unfold customData at hcustom
    cases hc : getProp data (lit "custom_data") with
    | none => rw [hc] at hcustom; cases hcustom
    | some c =>
      rw [hc] at hcustom
      simp only [Option.map_some', Option.some.injEq] at hcustom
      rw [← hcustom]
      exact truthy_jsOr_emptyObject c
  rw [getProp_of_truthy custom _ hcu] at hav
  simp only [Option.some.injEq] at hav
  subst hav
  have hev' : ev = eventValue payload := by
    unfold eventTypeValue at hev
    rw [getProp_some_of_payloadData payload data _ hdata,
      getProp_some_of_payloadData payload data _ hdata] at hev
    simp only [Option.bind_eq_bind, Option.some_bind, Option.pure_def, Option.some.injEq] at hev
    exact hev.symm
  subst hev'
  rw [inferStatusFromEvent_eq, jsOr_jsOr_self] at hfb
  cases htext : toJSString h (jsOr (eventValue payload) (.str [])) with
  | none => rw [htext] at hfb; cases hfb
  | some text =>
    rw [htext] at hfb
    simp only [Option.map_some', Option.some.injEq] at hfb
    subst hfb
    exact ⟨data, custom, u, text, customerId, subscriptionId, hdata, hcustom, hacc, hemail, hu,
      rfl, rfl⟩

theorem field_plan_status (h : Host) (nowRecord : Int) (accountId email : Option Str)
    (u : PlanUpdate) (fb customerId subscriptionId : Option Str) (ev : JSValue) :
    field (buildRecord h nowRecord accountId email u fb customerId subscriptionId ev)
        (lit "plan_status") = strOrNull (orStr u.plan_status fb)
      ∧ field (buildRecord h nowRecord accountId email u fb customerId subscriptionId ev)
        (lit "trial_end") = strOrNull u.trial_end
      ∧ field (buildRecord h nowRecord accountId email u fb customerId subscriptionId ev)
        (lit "plan_end") = strOrNull u.plan_end :=
  ⟨rfl, rfl, rfl⟩

/-- C12. For every payload from which the webhook branch builds a record (the record
it then stores), the `plan_status` of the record is `active`, `trialing` or `null`. -/
theorem stored_plan_status_closed (h : Host) (nowPlan nowRecord : Int) (payload : JSValue)
    (d : Delivery) (hd : deliveryOf h nowPlan nowRecord payload = some d) :
    field d.record (lit "plan_status") = .str (lit "active")
      ∨ field d.record (lit "plan_status") = .str (lit "trialing")
      ∨ field d.record (lit "plan_status") = .null := by
  obtain ⟨data, custom, u, text, customerId, subscriptionId, _, _, _, _, hu, _, hrec⟩ :=
    deliveryOf_some h nowPlan nowRecord payload d hd
  rw [hrec, (field_plan_status _ _ _ _ _ _ _ _ _).1]
  rcases planUpdate_status_cases h nowPlan payload u hu with h1 | h1 | h1 <;>
    rcases fallbackStatus_cases (h.toLowerCase text) with h2 | h2 | h2 <;>
    rw [h1, h2] <;> first
      | exact Or.inl rfl
      | exact Or.inr (Or.inl rfl)
      | exact Or.inr (Or.inr rfl)

/-- C11. In the record the webhook branch builds and stores, `plan_status` is the
status `planUpdateFromPayload` derived from the data whenever that is not `null`, and
the fallback otherwise. The fallback is, on the lower-cased text of `event_type`
(of `alert_name` when `event_type` is falsy), `active` when the text contains
`subscription.activated`, `subscription.updated` or `transaction.completed`, else
`trialing` when it contains `subscription.trialing`, else `null`. -/
theorem stored_plan_status_source (h : Host) (nowPlan nowRecord : Int) (payload : JSValue)
    (d : Delivery) (hd : deliveryOf h nowPlan nowRecord payload = some d) :
    ∃ u text,
      planUpdateFromPayload h nowPlan payload = some u
        ∧ toJSString h (jsOr (eventValue payload) (.str [])) = some text
        ∧ (∀ s, u.plan_status = some s → field d.record (lit "plan_status") = .str s)
        ∧ (u.plan_status = none →
            field d.record (lit "plan_status") = strOrNull (fallbackStatus (h.toLowerCase text)))
        ∧ inferStatusFromEvent h (eventValue payload)
            = some (fallbackStatus (h.toLowerCase text)) := by
  obtain ⟨data, custom, u, text, customerId, subscriptionId, _, _, _, _, hu, htext, hrec⟩ :=
    deliveryOf_some h nowPlan nowRecord payload d hd
  refine ⟨u, text, hu, htext, ?_, ?_, ?_⟩
  · intro s hs
    rw [hrec, (field_plan_status _ _ _ _ _ _ _ _ _).1, hs]
    rcases planUpdate_status_cases h nowPlan payload u hu with h1 | h1 | h1
    · rw [hs] at h1; cases h1; rfl
    · rw [hs] at h1; cases h1; rfl
    · rw [hs] at h1; cases h1
  · intro hnone
    rw [hrec, (field_plan_status _ _ _ _ _ _ _ _ _).1, hnone]
    rfl
  · rw [inferStatusFromEvent_eq, htext]
    rfl


theorem deliveryOf_trialing_example :
    deliveryOf demoHost 0 0 trialingEventOnly = some trialingDelivery := rfl

theorem stored_plan_status_closed_witness :
    deliveryOf demoHost 0 0 trialingEventOnly = some trialingDelivery
      ∧ (field trialingDelivery.record (lit "plan_status") = .str (lit "active")
        ∨ field trialingDelivery.record (lit "plan_status") = .str (lit "trialing")
        ∨ field trialingDelivery.record (lit "plan_status") = .null) :=
  ⟨rfl, stored_plan_status_closed demoHost 0 0 trialingEventOnly trialingDelivery rfl⟩

theorem stored_plan_status_source_witness :
    deliveryOf demoHost 0 0 trialingEventOnly = some trialingDelivery
      ∧ ∃ u text,
        planUpdateFromPayload demoHost 0 trialingEventOnly = some u
          ∧ toJSString demoHost (jsOr (eventValue trialingEventOnly) (.str [])) = some text
          ∧ (∀ s, u.plan_status = some s →
              field trialingDelivery.record (lit "plan_status") = .str s)
          ∧ (u.plan_status = none →
              field trialingDelivery.record (lit "plan_status")
                = strOrNull (fallbackStatus (demoHost.toLowerCase text)))
          ∧ inferStatusFromEvent demoHost (eventValue trialingEventOnly)
              = some (fallbackStatus (demoHost.toLowerCase text)) :=
  ⟨rfl, stored_plan_status_source demoHost 0 0 trialingEventOnly trialingDelivery rfl⟩

/-- The last branch of `planUpdateFromPayload` when both timestamp values convert:
for a status that is none of the six recognised ones all three fields are `null`. -/
theorem planUpdateFromPayload_unrecognised (h : Host) (now : Int) (payload data : JSValue)
    (status : Str) (planEnd trialEnd : Option Str)
    (hdata : payloadData payload = some data)
    (hstatus : statusOf h data = some status)
    (hnot : status ∉ [lit "active", lit "trialing", lit "canceled", lit "paused",
      lit "past_due", lit "unpaid"])
    (hplan : parseIso h
        (jsOr (field (jsOr (field data (lit "current_billing_period")) emptyObject)
          (lit "ends_at")) (field data (lit "next_billed_at"))) = some planEnd)
    (htrial : parseIso h
        (jsOr (field data (lit "trial_ends_at")) (field data (lit "trial_end")))
        = some trialEnd) :
    planUpdateFromPayload h now payload
      = some { plan_status := none, trial_end := none, plan_end := none } := by
  have hd := payloadData_truthy payload data hdata
  have h1 : status ≠ lit "active" := fun e => hnot (by simp [e])
  have h2 : status ≠ lit "trialing" := fun e => hnot (by simp [e])
  have h3 : status ∉ [lit "canceled", lit "paused", lit "past_due", lit "unpaid"] := by
    intro hm
    apply hnot
    simp only [List.mem_cons] at hm ⊢
    tauto
  unfold planUpdateFromPayload
  simp only [hdata, hstatus, planEndValue_eq data hd, trialEndValue_eq data hd, hplan, htrial,
    Option.bind_eq_bind, Option.some_bind, Option.pure_def, h1, h2, h3, if_false]

/-- The record of a delivery whose status is none of the six recognised ones:
`trial_end` and `plan_end` are `null`, whatever timestamps the payload carries and
whatever the fallback gives; with no fallback status all three fields are `null`. -/
theorem record_unrecognised (h : Host) (nowPlan nowRecord : Int) (payload data : JSValue)
    (d : Delivery) (status : Str)
    (hd : deliveryOf h nowPlan nowRecord payload = some d)
    (hdata : payloadData payload = some data)
    (hstatus : statusOf h data = some status)
    (hnot : status ∉ [lit "active", lit "trialing", lit "canceled", lit "paused",
      lit "past_due", lit "unpaid"]) :
    field d.record (lit "trial_end") = .null ∧ field d.record (lit "plan_end") = .null
      ∧ (inferStatusFromEvent h (eventValue payload) = some none →
          field d.record (lit "plan_status") = .null) := by
  obtain ⟨data', custom, u, text, customerId, subscriptionId, hdata', _, _, _, hu, htext, hrec⟩ :=
    deliveryOf_some h nowPlan nowRecord payload d hd
  obtain ⟨data'', status', planEnd, trialEnd, e1, e2, e3, e4, rfl⟩ :=
    planUpdateFromPayload_some h nowPlan payload u hu
  rw [hdata] at e1
  cases e1
  rw [hstatus] at e2
  cases e2
  have h1 : status ≠ lit "active" := fun e => hnot (by simp [e])
  have h2 : status ≠ lit "trialing" := fun e => hnot (by simp [e])
  have h3 : status ∉ [lit "canceled", lit "paused", lit "past_due", lit "unpaid"] := by
    intro hm
    apply hnot
    simp only [List.mem_cons] at hm ⊢
    tauto
  rw [hrec]
  simp only [h1, h2, h3, if_false]
  refine ⟨rfl, rfl, ?_⟩
  intro hfb
  rw [inferStatusFromEvent_eq, htext] at hfb
  simp only [Option.map_some', Option.some.injEq] at hfb
  rw [(field_plan_status _ _ _ _ _ _ _ _ _).1, hfb]
  rfl

/-- C13, at a failing input. The payload
`{"data":{"status":"expired","trial_end":{"toString":0}},"event_type":"x"}` has a
status that is none of the six recognised ones and carries a trial timestamp, and
its normalisation throws: `planUpdateFromPayload` evaluates
`parseIso(data.trial_ends_at || data.trial_end)` before it looks at the status, and
`new Date` on an object whose own `toString` is not callable is a `TypeError`. No
record is built. -/
theorem normalise_unrecognised_throws (h : Host) (hlow : LowerAscii h)
    (nowPlan nowRecord : Int) :
    statusOf h (field expiredOwnToString (lit "data")) = some (lit "expired")
      ∧ lit "expired" ∉ [lit "active", lit "trialing", lit "canceled", lit "paused",
          lit "past_due", lit "unpaid"]
      ∧ planUpdateFromPayload h nowPlan expiredOwnToString = none
      ∧ deliveryOf h nowPlan nowRecord expiredOwnToString = none := by
  refine ⟨?_, by decide, rfl, rfl⟩
  have e : statusOf h (field expiredOwnToString (lit "data"))
      = some (h.toLowerCase (lit "expired")) := rfl
  rw [e, hlow _ (by decide)]
  rfl

theorem normalise_unrecognised_throws_witness :
    LowerAscii demoHost
      ∧ statusOf demoHost (field expiredOwnToString (lit "data")) = some (lit "expired")
      ∧ lit "expired" ∉ [lit "active", lit "trialing", lit "canceled", lit "paused",
          lit "past_due", lit "unpaid"]
      ∧ planUpdateFromPayload demoHost 0 expiredOwnToString = none
      ∧ deliveryOf demoHost 0 0 expiredOwnToString = none :=
  ⟨demoHost_lowerAscii, normalise_unrecognised_throws demoHost demoHost_lowerAscii 0 0⟩

theorem record_unrecognised_example :
    field trialingDelivery.record (lit "trial_end") = .null
      ∧ field trialingDelivery.record (lit "plan_end") = .null
      ∧ field trialingDelivery.record (lit "plan_status") = .str (lit "trialing") :=
  ⟨rfl, rfl, rfl⟩

/-! ## Rejected deliveries -/

/-- C15. A webhook request with a secret configured and a signature that does not
verify is answered 401 `invalid_signature`, one that passes the signature check and
whose body is not JSON is answered 400 `invalid_json`, and in both cases, as for
every response with status 401 or 400, the store is the one before the request. -/
theorem handleWebhook_rejected_keeps_store (h : Host) (nowPlan nowRecord : Int) (env : Env)
    (body : Str) (signature : Option Str) :
    (env.PADDLE_WEBHOOK_SECRET.getD [] ≠ [] →
      verifySignature h body (signature.getD []) (env.PADDLE_WEBHOOK_SECRET.getD []) = false →
      handleWebhook h nowPlan nowRecord env body signature
        = some (jsonResponse (errorBody (lit "invalid_signature")) 401, env.BILLING_KV))
    ∧ ((env.PADDLE_WEBHOOK_SECRET.getD [] = []
          ∨ verifySignature h body (signature.getD []) (env.PADDLE_WEBHOOK_SECRET.getD [])
              = true) →
        h.jsonParse (if body = [] then lit "\x7b\x7d" else body) = none →
        handleWebhook h nowPlan nowRecord env body signature
          = some (jsonResponse (errorBody (lit "invalid_json")) 400, env.BILLING_KV))
    ∧ (∀ response kv, handleWebhook h nowPlan nowRecord env body signature = some (response, kv) →
        response.status = 401 ∨ response.status = 400 → kv = env.BILLING_KV) := by
  refine ⟨?_, ?_, ?_⟩
  · intro h1 h2
    unfold handleWebhook
    simp only [h1, h2, ne_eq, not_false_eq_true, and_self, if_true]
  · intro h1 h2
    have hcond : ¬ (env.PADDLE_WEBHOOK_SECRET.getD [] ≠ []
        ∧ verifySignature h body (signature.getD []) (env.PADDLE_WEBHOOK_SECRET.getD [])
            = false) := by
      rintro ⟨a, b⟩
      rcases h1 with hp | hp
      · exact a hp
      · rw [hp] at b; cases b
    unfold handleWebhook
    simp only [hcond, if_false, h2]
  · intro response kv hr hs
    unfold handleWebhook at hr
    dsimp only at hr
    generalize (if body = [] then lit "\x7b\x7d" else body) = text at hr
    by_cases hc : env.PADDLE_WEBHOOK_SECRET.getD [] ≠ []
        ∧ verifySignature h body (signature.getD []) (env.PADDLE_WEBHOOK_SECRET.getD [])
            = false
    · rw [if_pos hc] at hr
      simp only [Option.some.injEq, Prod.mk.injEq] at hr
      exact hr.2.symm
    · rw [if_neg hc] at hr
      cases hp : h.jsonParse text with
      | none =>
        rw [hp] at hr
        simp only [Option.some.injEq, Prod.mk.injEq] at hr
        exact hr.2.symm
      | some payload =>
        rw [hp] at hr
        dsimp only at hr
        cases hdv : deliveryOf h nowPlan nowRecord payload with
        | none => rw [hdv] at hr; cases hr
        | some d =>
          rw [hdv] at hr
          simp only [Option.some.injEq, Prod.mk.injEq] at hr
          obtain ⟨hr1, _⟩ := hr
          rw [← hr1] at hs
          simp [jsonResponse] at hs

theorem handleWebhook_rejected_examples :
    handleWebhook demoHost 0 0 secretEnv (lit "\x7b\x7d") (some (lit "ts=1700000000;h1=00"))
        = some (jsonResponse (errorBody (lit "invalid_signature")) 401, [])
      ∧ handleWebhook demoHost 0 0 openEnv (lit "not json") none
        = some (jsonResponse (errorBody (lit "invalid_json")) 400, []) :=
  ⟨rfl, rfl⟩


/-! ## Accepted deliveries and the account read -/

theorem handleWebhook_accepted (h : Host) (nowPlan nowRecord : Int) (env : Env) (body : Str)
    (signature : Option Str) (response : Response) (kv : KV)
    (hr : handleWebhook h nowPlan nowRecord env body signature = some (response, kv))
    (hs : response.status = 200) :
    ∃ payload d,
      h.jsonParse (if body = [] then lit "\x7b\x7d" else body) = some payload
        ∧ deliveryOf h nowPlan nowRecord payload = some d
        ∧ kv = storeDelivery h env.BILLING_KV d := by
  unfold handleWebhook at hr
  dsimp only at hr
  generalize (if body = [] then lit "\x7b\x7d" else body) = text at hr ⊢
  by_cases hc : env.PADDLE_WEBHOOK_SECRET.getD [] ≠ []
      ∧ verifySignature h body (signature.getD []) (env.PADDLE_WEBHOOK_SECRET.getD [])
          = false
  · rw [if_pos hc] at hr
    simp only [Option.some.injEq, Prod.mk.injEq] at hr
    rw [← hr.1] at hs
    simp [jsonResponse] at hs
  · rw [if_neg hc] at hr
    cases hp : h.jsonParse text with
    | none =>
      rw [hp] at hr
      simp only [Option.some.injEq, Prod.mk.injEq] at hr
      rw [← hr.1] at hs
      simp [jsonResponse] at hs
    | some payload =>
      rw [hp] at hr
      dsimp only at hr
      cases hdv : deliveryOf h nowPlan nowRecord payload with
      | none => rw [hdv] at hr; cases hr
      | some d =>
        rw [hdv] at hr
        simp only [Option.some.injEq, Prod.mk.injEq] at hr
        exact ⟨payload, d, rfl, hdv, hr.2.symm⟩

theorem accountKey_ne_accountIdKey (x y : Str) : accountKey x ≠ accountIdKey y := by
  intro e
  have := congrArg (fun l => l.getD 7 0) e
  simp [accountKey, accountIdKey, lit] at this

theorem storeDelivery_get (h : Host) (kv : KV) (d : Delivery) :
    (∀ e, d.email = some e →
        (storeDelivery h kv d).get (accountKey (h.toLowerCase e))
          = some (h.jsonStringify d.record))
      ∧ (∀ a, d.accountId = some a →
        (storeDelivery h kv d).get (accountIdKey a) = some (h.jsonStringify d.record))
      ∧ (∀ k, (∀ e, d.email = some e → k ≠ accountKey (h.toLowerCase e)) →
        (∀ a, d.accountId = some a → k ≠ accountIdKey a) →
        (storeDelivery h kv d).get k = kv.get k) := by
  obtain ⟨accountId, email, record⟩ := d
  refine ⟨?_, ?_, ?_⟩
  · rintro e rfl
    cases accountId with
    | none => simp [storeDelivery, KV.put, KV.get]
    | some a =>
      have hne : (accountKey (h.toLowerCase e) == accountIdKey a) = false := by
        simpa using accountKey_ne_accountIdKey (h.toLowerCase e) a
      simp [storeDelivery, KV.put, KV.get, List.lookup, hne]
  · rintro a rfl
    simp [storeDelivery, KV.put, KV.get]
  · intro k hk1 hk2
    cases email with
    | none =>
      cases accountId with
      | none => rfl
      | some a =>
        have hne : (k == accountIdKey a) = false := by simpa using hk2 a rfl
        simp [storeDelivery, KV.put, KV.get, List.lookup, hne]
    | some e =>
      have hne1 : (k == accountKey (h.toLowerCase e)) = false := by simpa using hk1 e rfl
      cases accountId with
      | none => simp [storeDelivery, KV.put, KV.get, List.lookup, hne1]
      | some a =>
        have hne : (k == accountIdKey a) = false := by simpa using hk2 a rfl
        simp [storeDelivery, KV.put, KV.get, List.lookup, hne, hne1]

/-- C14. For every webhook delivery that is answered 200: when an email and an
account id are extracted, the store afterwards holds the same serialised record
under `account:<lower-cased email>` and under `account_id:<account id>`, and every
other key reads as before. -/
theorem accepted_delivery_writes_both_keys (h : Host) (nowPlan nowRecord : Int) (env : Env)
    (body : Str) (signature : Option Str) (response : Response) (kv : KV)
    (hr : handleWebhook h nowPlan nowRecord env body signature = some (response, kv))
    (hs : response.status = 200) :
    ∃ payload d,
      h.jsonParse (if body = [] then lit "\x7b\x7d" else body) = some payload
        ∧ deliveryOf h nowPlan nowRecord payload = some d
        ∧ ∀ e a, d.email = some e → d.accountId = some a →
            kv.get (accountKey (h.toLowerCase e)) = some (h.jsonStringify d.record)
              ∧ kv.get (accountIdKey a) = some (h.jsonStringify d.record)
              ∧ ∀ k, k ≠ accountKey (h.toLowerCase e) → k ≠ accountIdKey a →
                  kv.get k = env.BILLING_KV.get k := by
  obtain ⟨payload, d, hp, hd, rfl⟩ :=
    handleWebhook_accepted h nowPlan nowRecord env body signature response kv hr hs
  refine ⟨payload, d, hp, hd, ?_⟩
  intro e a he ha
  obtain ⟨g1, g2, g3⟩ := storeDelivery_get h env.BILLING_KV d
  refine ⟨g1 e he, g2 a ha, ?_⟩
  intro k hk1 hk2
  apply g3 k
  · intro e' he'
    rw [he] at he'
    cases he'
    exact hk1
  · intro a' ha'
    rw [ha] at ha'
    cases ha'
    exact hk2


theorem accepted_delivery_writes_both_keys_witness :
    handleWebhook demoHost 0 0 openEnv (plainStringify annPayload) none
        = some (jsonResponse (.obj [(lit "ok", .bool true)]) 200, annStore)
      ∧ ∃ payload d,
        demoHost.jsonParse
            (if plainStringify annPayload = [] then lit "\x7b\x7d" else plainStringify annPayload)
          = some payload
        ∧ deliveryOf demoHost 0 0 payload = some d
        ∧ ∀ e a, d.email = some e → d.accountId = some a →
            annStore.get (accountKey (demoHost.toLowerCase e))
                = some (demoHost.jsonStringify d.record)
              ∧ annStore.get (accountIdKey a) = some (demoHost.jsonStringify d.record)
              ∧ ∀ k, k ≠ accountKey (demoHost.toLowerCase e) → k ≠ accountIdKey a →
                  annStore.get k = openEnv.BILLING_KV.get k :=
  ⟨rfl, accepted_delivery_writes_both_keys demoHost 0 0 openEnv (plainStringify annPayload) none
    (jsonResponse (.obj [(lit "ok", .bool true)]) 200) annStore rfl rfl⟩

theorem toStringOrNull_some (h : Host) (v : JSValue) (s : Str)
    (hs : toStringOrNull h v = some (some s)) : s ≠ [] ∧ trim s = s := by
  have key : ∀ t : Str, (if trim t = [] then some none else some (some (trim t)))
      = some (some s) → s ≠ [] ∧ trim s = s := by
    intro t ht
    split_ifs at ht with hc
    · cases ht
    · simp only [Option.some.injEq] at ht
      subst ht
      exact ⟨hc, trim_trim t⟩
  unfold toStringOrNull at hs
  split at hs
  · cases hs
  · cases hs
  · split at hs
    · cases hs
    · exact key _ hs

theorem extractEmail_some (h : Host) (data custom : JSValue) (e : Str)
    (he : extractEmail h data custom = some (some e)) : e ≠ [] := by
  unfold extractEmail at he
  simp only [Option.bind_eq_bind, Option.bind_eq_some, Option.pure_def] at he
  obtain ⟨v1, _, r1, hr1, he⟩ := he
  cases r1 with
  | some e1 =>
    simp only [Option.some.injEq] at he
    subst he
    exact (toStringOrNull_some h v1 _ hr1).1
  | none =>
    simp only [Option.bind_eq_some] at he
    obtain ⟨c, _, v2, _, r2, hr2, he⟩ := he
    cases r2 with
    | some e2 =>
      simp only [Option.some.injEq] at he
      subst he
      exact (toStringOrNull_some h v2 _ hr2).1
    | none =>
      simp only [Option.bind_eq_some] at he
      obtain ⟨v3, _, hr3⟩ := he
      exact (toStringOrNull_some h v3 _ hr3).1

theorem toLowerCase_ne_nil (h : Host) (hl1 : LowerAscii h) (hl2 : LowerNonAscii h) (s : Str)
    (hs : s ≠ []) : h.toLowerCase s ≠ [] := by
  by_cases hasc : ∀ c ∈ s, c < 128
  · rw [hl1 s hasc]
    simpa using hs
  · push_neg at hasc
    obtain ⟨c, hc, hge⟩ := hasc
    obtain ⟨d, hd, _⟩ := hl2 s ⟨c, hc, hge⟩
    exact List.ne_nil_of_mem hd

theorem handleAccount_found (h : Host) (env : Env) (authorization email accountId : Option Str)
    (key text : Str) (record : JSValue)
    (hauth : (requireToken env.BILLING_API_TOKEN authorization).ok = true)
    (hkey : (if h.toLowerCase (trim (email.getD [])) ≠ []
        then accountKey (h.toLowerCase (trim (email.getD [])))
        else accountIdKey (trim (accountId.getD []))) = key)
    (hsome : ¬ (h.toLowerCase (trim (email.getD [])) = [] ∧ trim (accountId.getD []) = []))
    (hget : env.BILLING_KV.get key = some text)
    (hparse : h.jsonParse text = some record) (htruthy : truthy record = true) :
    handleAccount h env authorization email accountId
      = some (jsonResponse (.obj [(lit "ok", .bool true), (lit "account", record)]) 200) := by
  unfold handleAccount
  simp only [hauth, Bool.not_true, Bool.false_eq_true, if_false, hsome, hkey, hget, hparse,
    htruthy]

/-- C20. After a webhook delivery answered 200 whose stored text parses back to
`record`, an authorized `GET /account` answers 200 with `account: record` when its
`email` parameter, trimmed and lower-cased, is the lower-cased extracted email, and
likewise when it has no email and its `account_id` parameter is the extracted
account id. -/
theorem account_read_after_delivery (h : Host) (hl1 : LowerAscii h) (hl2 : LowerNonAscii h)
    (nowPlan nowRecord : Int) (env : Env) (body : Str) (signature : Option Str)
    (response : Response) (kv : KV) (payload : JSValue) (d : Delivery) (record : JSValue)
    (authorization : Option Str)
    (hr : handleWebhook h nowPlan nowRecord env body signature = some (response, kv))
    (hs : response.status = 200)
    (hparse : h.jsonParse (if body = [] then lit "\x7b\x7d" else body) = some payload)
    (hd : deliveryOf h nowPlan nowRecord payload = some d)
    (hread : h.jsonParse (h.jsonStringify d.record) = some record)
    (htruthy : truthy record = true)
    (hauth : (requireToken env.BILLING_API_TOKEN authorization).ok = true) :
    (∀ (E P : Str) (accountId : Option Str), d.email = some E →
        h.toLowerCase (trim P) = h.toLowerCase E →
        handleAccount h { env with BILLING_KV := kv } authorization (some P) accountId
          = some (jsonResponse (.obj [(lit "ok", .bool true), (lit "account", record)]) 200))
    ∧ (∀ (A : Str) (email : Option Str), d.accountId = some A → trim (email.getD []) = [] →
        handleAccount h { env with BILLING_KV := kv } authorization email (some A)
          = some (jsonResponse (.obj [(lit "ok", .bool true), (lit "account", record)]) 200)) := by
  obtain ⟨payload', d', hp', hd', rfl⟩ :=
    handleWebhook_accepted h nowPlan nowRecord env body signature response kv hr hs
  rw [hparse] at hp'
  cases hp'
  rw [hd] at hd'
  cases hd'
  obtain ⟨data, custom, u, text, customerId, subscriptionId, _, _, hacc, hemail, _, _, _⟩ :=
    deliveryOf_some h nowPlan nowRecord payload d hd
  obtain ⟨g1, g2, _⟩ := storeDelivery_get h env.BILLING_KV d
  constructor
  · intro E P accountId hE hP
    rw [hE] at hemail
    have hEne : E ≠ [] := extractEmail_some h data custom E hemail
    have hlow : h.toLowerCase (trim P) ≠ [] := by
      rw [hP]
      exact toLowerCase_ne_nil h hl1 hl2 E hEne
    apply handleAccount_found h { env with BILLING_KV := storeDelivery h env.BILLING_KV d }
      authorization (some P) accountId (accountKey (h.toLowerCase E))
      (h.jsonStringify d.record) record hauth
    · simp only [Option.getD_some, hP, ne_eq]
      rw [if_pos (by rw [← hP]; exact hlow)]
    · simp only [Option.getD_some]
      exact fun hc => hlow hc.1
    · exact g1 E hE
    · exact hread
    · exact htruthy
  · intro A email hA hblank
    rw [hA] at hacc
    obtain ⟨hAne, hAtrim⟩ := toStringOrNull_some h _ A hacc
    have hl : h.toLowerCase [] = [] := hl1 [] (by simp)
    apply handleAccount_found h { env with BILLING_KV := storeDelivery h env.BILLING_KV d }
      authorization email (some A) (accountIdKey A) (h.jsonStringify d.record) record hauth
    · simp only [hblank, hl, Option.getD_some, hAtrim, ne_eq, not_true_eq_false, if_false]
    · simp only [Option.getD_some, hAtrim]
      exact fun hc => hAne hc.2
    · exact g2 A hA
    · exact hread
    · exact htruthy


set_option maxRecDepth 100000 in
theorem account_read_after_delivery_witness :
    LowerAscii demoHost ∧ LowerNonAscii demoHost
      ∧ handleWebhook demoHost 0 0 openEnv (plainStringify annPayload) none
          = some (jsonResponse (.obj [(lit "ok", .bool true)]) 200, annStore)
      ∧ deliveryOf demoHost 0 0 annPayload = some annDelivery
      ∧ demoHost.jsonParse (demoHost.jsonStringify annDelivery.record) = some annRecord
      ∧ (requireToken openEnv.BILLING_API_TOKEN none).ok = true
      ∧ handleAccount demoHost { openEnv with BILLING_KV := annStore } none
            (some (lit "  ANN@example.COM ")) none
          = some (jsonResponse (.obj [(lit "ok", .bool true), (lit "account", annRecord)]) 200)
      ∧ handleAccount demoHost { openEnv with BILLING_KV := annStore } none none
            (some (lit "u1"))
          = some (jsonResponse (.obj [(lit "ok", .bool true), (lit "account", annRecord)]) 200) :=
  have key := account_read_after_delivery demoHost demoHost_lowerAscii demoHost_lowerNonAscii
    0 0 openEnv (plainStringify annPayload) none
    (jsonResponse (.obj [(lit "ok", .bool true)]) 200) annStore annPayload annDelivery annRecord
    none rfl rfl rfl rfl rfl rfl rfl
  ⟨demoHost_lowerAscii, demoHost_lowerNonAscii, rfl, rfl, rfl, rfl,
    key.1 (lit "Ann@Example.com") (lit "  ANN@example.COM ") none rfl rfl,
    key.2 (lit "u1") none rfl rfl⟩

end PaddleWorker
